import Mathlib

/-! # MediQueue: queue ordering and check-in lifecycle

A shallow embedding of the route handlers of `src/routes/checkIns.js` and
`src/routes/queues.js` together with the Mongoose schemas of `src/models/`.

* A collection is a `List` of documents; the index of a document in the list
  plays the part of its `_id`, so `findOne` returns an index and a document
  and `save` / `findOneAndUpdate` write back at that index.
* Dates are milliseconds since the epoch (`Nat`); an unset date is `none`.
  Every `new Date()` / `Date.now()` of one request reads the same instant
  `Env.now`; `new Date().setHours(0, 0, 0, 0)` is `Env.today`.
* JavaScript numbers are modelled by integers (`Nat` for counts, `Int` for
  counters that `$inc` may drive below zero).
* The per-day `Queue` mirror document and `deviceInfo` carry no behaviour the
  handlers read back; they are left out.
-/

namespace MediQueue

/-! ## Documents -/

/-- The `status` enum of `checkInSchema` (`src/models/CheckIn.js`). -/
inductive Status where
  | waiting
  | called
  | inService
  | completed
  | cancelled
  | noShow
  deriving DecidableEq, Repr

/-- The `priority` enum of `checkInSchema`, in the order the schema lists it. -/
inductive Priority where
  | low
  | normal
  | high
  | emergency
  deriving DecidableEq, Repr

/-- The string stored in the `priority` field. -/
def Priority.toString : Priority → String
  | .low => "low"
  | .normal => "normal"
  | .high => "high"
  | .emergency => "emergency"

/-- Schema validation of a `priority` string against the enum. -/
def Priority.ofString? (s : String) : Option Priority :=
  if s = "low" then some .low
  else if s = "normal" then some .normal
  else if s = "high" then some .high
  else if s = "emergency" then some .emergency
  else none

/-- The `locationData` sub-document of a check-in; a Number the request left
out is unset. -/
structure LocationData where
  latitude : Option Int
  longitude : Option Int
  accuracy : Option Int
  timestamp : Nat
  verified : Bool
  distanceFromClinic : Option Int
  deriving DecidableEq, Repr

/-- A document of the `CheckIn` collection (`src/models/CheckIn.js`). -/
structure CheckIn where
  checkInId : String
  clinicId : String
  patientId : String
  queuePosition : Nat
  status : Status
  visitReason : String
  priority : Priority
  appointmentTime : Option Nat
  hasAppointment : Bool
  checkInTime : Nat
  calledTime : Option Nat
  serviceStartTime : Option Nat
  serviceEndTime : Option Nat
  estimatedWaitTime : Int
  actualWaitTime : Option Int
  locationData : Option LocationData
  createdAt : Nat
  updatedAt : Nat
  deriving DecidableEq, Repr

/-- A document of the `Clinic` collection (`src/models/Clinic.js`). Its
`address` declares street, city, state, zipCode and country only. -/
structure Clinic where
  clinicId : String
  isActive : Bool
  avgWaitTime : Int
  currentQueueSize : Int
  maxQueueSize : Int
  enableGPSVerification : Bool
  maxDistanceMeters : Int
  totalCheckIns : Int
  totalPatientsServed : Int
  deriving DecidableEq, Repr

/-- The read `clinic.address.latitude` of the check-in handler: `clinicSchema`
declares no such path, so the read gives `undefined` for every clinic. -/
def Clinic.addressLatitude (_clinic : Clinic) : Option Int :=
  none

/-- The read `clinic.address.longitude`: no such path in `clinicSchema`. -/
def Clinic.addressLongitude (_clinic : Clinic) : Option Int :=
  none

/-- A document of the `Patient` collection (`src/models/Patient.js`). -/
structure Patient where
  patientId : String
  firstName : String
  lastName : String
  deriving DecidableEq, Repr

/-- The database: the three collections the handlers read and write. -/
structure State where
  clinics : List Clinic
  patients : List Patient
  checkIns : List CheckIn
  deriving DecidableEq, Repr

/-! ## Requests, environment, responses -/

/-- The `patientInfo` object of a check-in request body. -/
structure PatientInfo where
  patientId : Option String
  firstName : Option String
  lastName : Option String
  deriving DecidableEq, Repr

/-- A value a request sends for a field the schema types as Number: nothing
(`undefined`, `null`), a value that casts to a number, or a value the Number
cast rejects (a string such as `"abc"`, an object). -/
inductive NumberInput where
  | missing
  | number (value : Int)
  | notANumber
  deriving DecidableEq, Repr

/-- The stored value of a Number field, when the cast succeeds. -/
def NumberInput.cast? : NumberInput → Option Int
  | .number value => some value
  | _ => none

/-- Whether Mongoose's Number cast accepts the value. -/
def NumberInput.casts : NumberInput → Bool
  | .notANumber => false
  | _ => true

/-- The `locationData` object of a check-in request body. -/
structure LocationInput where
  latitude : NumberInput
  longitude : NumberInput
  accuracy : NumberInput
  deriving DecidableEq, Repr

/-- Whether the `locationData` of a request passes the Number casts of
`checkInSchema.locationData` (an absent `locationData` does). -/
def locationCasts : Option LocationInput → Bool
  | none => true
  | some ld => ld.latitude.casts && ld.longitude.casts && ld.accuracy.casts

/-- The body of `POST /api/check-ins`. -/
structure CheckInRequest where
  clinicId : String
  patientInfo : Option PatientInfo
  visitReason : Option String
  locationData : Option LocationInput
  hasAppointment : Option Bool
  appointmentTime : Option Nat
  priority : Option String
  deriving DecidableEq, Repr

/-- What a request reads from outside the database: the clock, the two
identifiers `uuidv4()` hands out, whether `app.get('io')` is registered, and
the result of `calculateDistance` (a floating-point computation, kept
abstract). -/
structure Env where
  now : Nat
  today : Nat
  newPatientId : String
  newCheckInId : String
  ioPresent : Bool
  calculateDistance : NumberInput → NumberInput → Int → Int → Int

/-- The HTTP answer of a handler. -/
inductive Response where
  | created (checkInId : String) (queuePosition : Nat) (estimatedWaitTime : Int)
      (locationVerified : Bool)
  | statusUpdated (data : CheckIn)
  | cancelledOk
  | patientCalled (checkInId : String)
  | clinicNotFound
  | queueFull
  | checkInNotFound
  | noPatientsInQueue
  | serverError
  deriving DecidableEq, Repr

/-! ## Collection primitives -/

/-- Model of `Model.findOne(filter)`: the first document that matches, with its
index. -/
def findOne {α : Type} (p : α → Bool) : List α → Option (Nat × α)
  | [] => none
  | a :: as =>
    if p a then some (0, a)
    else match findOne p as with
      | none => none
      | some (i, b) => some (i + 1, b)

/-- Model of `Model.countDocuments(filter)`. -/
def countDocuments {α : Type} (p : α → Bool) (l : List α) : Nat :=
  (l.filter p).length

/-- Model of `Model.findOne(filter).sort(order)`: a matching document that no
other matching document sorts strictly before, with its index (the earliest
stored one among equals). -/
def findOneSorted {α : Type} (p : α → Bool) (before : α → α → Bool) :
    List α → Option (Nat × α)
  | [] => none
  | a :: as =>
    match findOneSorted p before as with
    | none => if p a then some (0, a) else none
    | some (i, b) => if p a && !before b a then some (0, a) else some (i + 1, b)

/-- MongoDB's comparison of two strings, as "the first is strictly smaller":
character by character, a proper prefix first. -/
def compareStrings : List Char → List Char → Bool
  | [], [] => false
  | [], _ :: _ => true
  | _ :: _, [] => false
  | a :: as, b :: bs => decide (a.toNat < b.toNat) || (a.toNat == b.toNat && compareStrings as bs)

/-- The order `.sort({ priority: -1, queuePosition: 1 })` of call-next:
`a` comes strictly before `b` when its `priority` string is the greater one,
or the strings are equal and its `queuePosition` is the smaller one. -/
def sortsBefore (a b : CheckIn) : Bool :=
  compareStrings b.priority.toString.data a.priority.toString.data
    || (a.priority.toString == b.priority.toString && decide (a.queuePosition < b.queuePosition))

/-- The fixed rank of priorities that the specification names
(emergency=3, high=2, normal=1, low=0); the handlers do not use it. -/
def priorityRank : Priority → Nat
  | .emergency => 3
  | .high => 2
  | .normal => 1
  | .low => 0

/-! ## The `pre('save')` hook of `checkInSchema` -/

/-- JavaScript `Math.round(d / 60000)` for an integer `d`: the nearest integer,
a half rounded towards plus infinity. -/
def roundMinutes (d : Int) : Int :=
  (d + 30000) / 60000

/-- The hook run by every `checkIn.save()`: refresh `updatedAt`, and derive
`actualWaitTime` when the status is in-service, `serviceStartTime` is set and
`actualWaitTime` is falsy (unset or zero). -/
def preSave (now : Nat) (c : CheckIn) : CheckIn :=
  let c1 := { c with updatedAt := now }
  match c1.serviceStartTime with
  | some start =>
    if c1.status = .inService ∧ (c1.actualWaitTime = none ∨ c1.actualWaitTime = some 0) then
      { c1 with actualWaitTime := some (roundMinutes ((start : Int) - (c1.checkInTime : Int))) }
    else c1
  | none => c1

/-! ## `POST /api/check-ins` -/

/-- Model of `Clinic.findOneAndUpdate({ clinicId }, update)`: apply `update` to
the first clinic with this id, if there is one. -/
def updateClinic (clinicId : String) (update : Clinic → Clinic) (clinics : List Clinic) :
    List Clinic :=
  match findOne (fun c => c.clinicId == clinicId) clinics with
  | none => clinics
  | some (i, c) => clinics.set i (update c)

/-- The "create or find patient" block: look the patient up when the request
names a (non-empty) `patientId`, otherwise or when none is found save a new
one. `none` is a rejected `patient.save()` (a missing required name, or a
`patientId` that the unique index already holds). -/
def resolvePatient (env : Env) (info : PatientInfo) (patients : List Patient) :
    Option (List Patient × Patient) :=
  let found : Option (Nat × Patient) :=
    match info.patientId with
    | some pid => if pid = "" then none else findOne (fun p => p.patientId == pid) patients
    | none => none
  match found with
  | some (_, patient) => some (patients, patient)
  | none =>
    match info.firstName, info.lastName with
    | some first, some last =>
      if first = "" ∨ last = "" then none
      else if patients.any (fun p => p.patientId == env.newPatientId) then none
      else
        let patient : Patient := { patientId := env.newPatientId, firstName := first, lastName := last }
        some (patients ++ [patient], patient)
    | _, _ => none

/-- The "verify location" block: `(locationVerified, distanceFromClinic)`.
The distance branch needs `clinic.address.latitude` and
`clinic.address.longitude` to be truthy. -/
def verifyLocation (env : Env) (clinic : Clinic) (locationData : Option LocationInput) :
    Bool × Option Int :=
  match locationData with
  | none => (false, none)
  | some ld =>
    if clinic.enableGPSVerification then
      match clinic.addressLatitude, clinic.addressLongitude with
      | some lat, some lon =>
        if lat ≠ 0 ∧ lon ≠ 0 then
          let distanceFromClinic := env.calculateDistance ld.latitude ld.longitude lat lon
          (decide (distanceFromClinic ≤ clinic.maxDistanceMeters), some distanceFromClinic)
        else (false, none)
      | _, _ => (false, none)
    else (false, none)

/-- The filter of the `countDocuments` call of the check-in handler: the
clinic's entries created today whose status is waiting or called. -/
def inCurrentQueue (clinicId : String) (today : Nat) (c : CheckIn) : Bool :=
  c.clinicId == clinicId && (c.status == .waiting || c.status == .called)
    && decide (today ≤ c.createdAt)

/-- The `$inc` of a successful check-in. -/
def incOnCheckIn (c : Clinic) : Clinic :=
  { c with currentQueueSize := c.currentQueueSize + 1, totalCheckIns := c.totalCheckIns + 1 }

/-- JavaScript `priority || 'normal'`: an absent or empty string gives
`'normal'`. -/
def orNormal (priority : Option String) : String :=
  match priority with
  | some p => if p = "" then "normal" else p
  | none => "normal"

/-- The document built by `new CheckIn({ ... })` in the check-in handler;
`status` takes the schema default `'waiting'`, `checkInTime` and `createdAt`
the default `Date.now`. -/
def newCheckIn (env : Env) (req : CheckInRequest) (patient : Patient) (visitReason : String)
    (priority : Priority) (queuePosition : Nat) (estimatedWaitTime : Int)
    (verification : Bool × Option Int) : CheckIn :=
  { checkInId := env.newCheckInId
    clinicId := req.clinicId
    patientId := patient.patientId
    queuePosition := queuePosition
    status := .waiting
    visitReason := visitReason
    priority := priority
    appointmentTime := req.appointmentTime
    hasAppointment := req.hasAppointment.getD false
    checkInTime := env.now
    calledTime := none
    serviceStartTime := none
    serviceEndTime := none
    estimatedWaitTime := estimatedWaitTime
    actualWaitTime := none
    locationData := req.locationData.map (fun ld =>
      { latitude := ld.latitude.cast?
        longitude := ld.longitude.cast?
        accuracy := ld.accuracy.cast?
        timestamp := env.now
        verified := verification.1
        distanceFromClinic := verification.2 })
    createdAt := env.now
    updatedAt := env.now }

/-- The handler of `POST /api/check-ins`. `checkIn.save()` is rejected (and
the handler answers 500) when `visitReason` is empty, when the unique index
already holds the `checkInId`, or when a `locationData` number does not
cast. -/
def checkIn (env : Env) (req : CheckInRequest) (s : State) : State × Response :=
  match findOne (fun c => c.clinicId == req.clinicId && c.isActive) s.clinics with
  | none => (s, .clinicNotFound)
  | some (_, clinic) =>
    if clinic.currentQueueSize ≥ clinic.maxQueueSize then (s, .queueFull)
    else
      match req.patientInfo with
      | none => (s, .serverError)
      | some info =>
        match resolvePatient env info s.patients with
        | none => (s, .serverError)
        | some (patients, patient) =>
          let s1 : State := { s with patients := patients }
          let verification := verifyLocation env clinic req.locationData
          let currentQueue := countDocuments (inCurrentQueue req.clinicId env.today) s.checkIns
          let queuePosition := currentQueue + 1
          let estimatedWaitTime : Int := (queuePosition : Int) * clinic.avgWaitTime
          match req.visitReason, Priority.ofString? (orNormal req.priority) with
          | some visitReason, some priority =>
            if visitReason = "" ∨ s.checkIns.any (fun c => c.checkInId == env.newCheckInId)
                ∨ locationCasts req.locationData = false then
              (s1, .serverError)
            else
              let doc := newCheckIn env req patient visitReason priority queuePosition
                estimatedWaitTime verification
              let s2 : State :=
                { s1 with
                  checkIns := s.checkIns ++ [preSave env.now doc]
                  clinics := updateClinic req.clinicId incOnCheckIn s.clinics }
              if env.ioPresent then
                (s2, .created env.newCheckInId queuePosition estimatedWaitTime verification.1)
              else (s2, .serverError)
          | _, _ => (s1, .serverError)

/-! ## `PUT /api/check-ins/:checkInId/status` -/

/-- The `$inc` of a first completion. -/
def incOnCompleted (c : Clinic) : Clinic :=
  { c with currentQueueSize := c.currentQueueSize - 1
           totalPatientsServed := c.totalPatientsServed + 1 }

/-- The "set timestamps based on status" chain, applied to the document whose
`status` has already been overwritten; the second component tells whether the
`completed` branch (with its clinic update) ran. -/
def stampStatus (now : Nat) (status : Status) (c : CheckIn) : CheckIn × Bool :=
  if status = .called ∧ c.calledTime = none then ({ c with calledTime := some now }, false)
  else if status = .inService ∧ c.serviceStartTime = none then
    ({ c with serviceStartTime := some now }, false)
  else if status = .completed ∧ c.serviceEndTime = none then
    ({ c with serviceEndTime := some now }, true)
  else (c, false)

/-- The handler of `PUT /api/check-ins/:checkInId/status`, for a `status` of
the schema's enum. -/
def updateStatus (env : Env) (checkInId : String) (status : Status) (s : State) :
    State × Response :=
  match findOne (fun c => c.checkInId == checkInId) s.checkIns with
  | none => (s, .checkInNotFound)
  | some (i, found) =>
    let stamped := stampStatus env.now status { found with status := status }
    let saved := preSave env.now stamped.1
    let clinics :=
      if stamped.2 then updateClinic found.clinicId incOnCompleted s.clinics else s.clinics
    let s1 : State := { s with clinics := clinics, checkIns := s.checkIns.set i saved }
    if env.ioPresent then (s1, .statusUpdated saved) else (s1, .serverError)

/-! ## `DELETE /api/check-ins/:checkInId` -/

/-- The `$inc` of the cancel handler. -/
def decQueueSize (c : Clinic) : Clinic :=
  { c with currentQueueSize := c.currentQueueSize - 1 }

/-- The handler of `DELETE /api/check-ins/:checkInId`. `findOneAndUpdate` is
called with `new: true`, so `checkIn` is the document after the update, and
it is this document's status the handler tests. -/
def cancel (env : Env) (checkInId : String) (s : State) : State × Response :=
  match findOne (fun c => c.checkInId == checkInId) s.checkIns with
  | none => (s, .checkInNotFound)
  | some (i, found) =>
    let checkIn : CheckIn := { found with status := .cancelled }
    let checkIns := s.checkIns.set i checkIn
    let clinics :=
      if checkIn.status = .waiting ∨ checkIn.status = .called then
        updateClinic checkIn.clinicId decQueueSize s.clinics
      else s.clinics
    let s1 : State := { s with clinics := clinics, checkIns := checkIns }
    if env.ioPresent then (s1, .cancelledOk) else (s1, .serverError)

/-! ## `POST /api/queues/:clinicId/call-next` and the position query -/

/-- The filter of call-next: the clinic's waiting entries. -/
def isWaitingIn (clinicId : String) (c : CheckIn) : Bool :=
  c.clinicId == clinicId && c.status == .waiting

/-- The entry call-next selects:
`CheckIn.findOne({ clinicId, status: 'waiting' }).sort({ priority: -1, queuePosition: 1 })`. -/
def nextCheckIn (clinicId : String) (checkIns : List CheckIn) : Option (Nat × CheckIn) :=
  findOneSorted (isWaitingIn clinicId) sortsBefore checkIns

/-- The handler of `POST /api/queues/:clinicId/call-next`. -/
def callNext (env : Env) (clinicId : String) (s : State) : State × Response :=
  match nextCheckIn clinicId s.checkIns with
  | none => (s, .noPatientsInQueue)
  | some (i, next) =>
    let saved := preSave env.now { next with status := .called, calledTime := some env.now }
    let s1 : State := { s with checkIns := s.checkIns.set i saved }
    if env.ioPresent then (s1, .patientCalled saved.checkInId) else (s1, .serverError)

/-- The handler of `GET /api/queues/position/:checkInId`:
`(currentPosition, originalPosition)`. -/
def positionOf (checkInId : String) (s : State) : Option (Nat × Nat) :=
  match findOne (fun c => c.checkInId == checkInId) s.checkIns with
  | none => none
  | some (_, checkIn) =>
    let peopleAhead := countDocuments (fun c =>
      c.clinicId == checkIn.clinicId && (c.status == .waiting || c.status == .called)
        && decide (c.queuePosition < checkIn.queuePosition)) s.checkIns
    some (peopleAhead + 1, checkIn.queuePosition)

/-! ## Sequential runs -/

/-- One of the four operations of the queue engine. -/
inductive Op where
  | checkIn (req : CheckInRequest)
  | updateStatus (checkInId : String) (status : Status)
  | callNext (clinicId : String)
  | cancel (checkInId : String)
  deriving DecidableEq, Repr

/-- Run one operation. -/
def step (env : Env) (op : Op) (s : State) : State × Response :=
  match op with
  | .checkIn req => checkIn env req s
  | .updateStatus checkInId status => updateStatus env checkInId status s
  | .callNext clinicId => callNext env clinicId s
  | .cancel checkInId => cancel env checkInId s

/-- Run operations one after the other, each in its own environment. -/
def run : List (Env × Op) → State → State
  | [], s => s
  | (env, op) :: rest, s => run rest (step env op s).1

/-! ## Notions used to state the properties -/

/-- The place of each `priority` string in the order of `compareStrings`:
"emergency" < "high" < "low" < "normal". -/
def stringOrder : Priority → Nat
  | .emergency => 0
  | .high => 1
  | .low => 2
  | .normal => 3

/-- The transition table of the specification (section 4.3): the six pairs
(current status, target) it calls legal. The handlers do not consult it. -/
def specLegalTransition : Status → Status → Bool
  | .waiting, .called => true
  | .waiting, .cancelled => true
  | .called, .inService => true
  | .called, .cancelled => true
  | .called, .noShow => true
  | .inService, .completed => true
  | _, _ => false

/-- The entries "already created for that clinic on that day", whatever their
status. -/
def createdToday (clinicId : String) (today : Nat) (c : CheckIn) : Bool :=
  c.clinicId == clinicId && decide (today ≤ c.createdAt)

/-- The status carried by a successful status-update response. -/
def Response.updatedStatus? : Response → Option Status
  | .statusUpdated data => some data.status
  | _ => none

/-- The queuePosition and estimatedWaitTime of a "created" answer. -/
def Response.positionAndEstimate? : Response → Option (Nat × Int)
  | .created _ queuePosition estimatedWaitTime _ => some (queuePosition, estimatedWaitTime)
  | _ => none

/-! ## Runs, counters and the notions of the invariants -/

/-- Every step of a run satisfies `ok`, tested in the state the step starts
from. -/
def allSteps (ok : State → Env → Op → Bool) : List (Env × Op) → State → Bool
  | [], _ => true
  | (env, op) :: rest, s => ok s env op && allSteps ok rest (step env op s).1

/-- An active entry: status waiting, called or in-service. -/
def activeEntry (c : CheckIn) : Bool :=
  c.status == .waiting || c.status == .called || c.status == .inService

/-- The number of active entries of a clinic. -/
def activeQueueSize (clinicId : String) (checkIns : List CheckIn) : Nat :=
  countDocuments (fun c => c.clinicId == clinicId && activeEntry c) checkIns

/-- An empty system: no check-in entries, every clinic counter at 0. -/
def emptyClinics (s : State) : Bool :=
  s.checkIns.isEmpty && s.clinics.all (fun c => c.currentQueueSize == 0)

/-- The steps that move entries forward only: check-in, call-next, and a
status update of an entry that is currently active to a target other than
cancelled and no-show. -/
def forwardStep (s : State) (_env : Env) : Op → Bool
  | .checkIn _ => true
  | .callNext _ => true
  | .cancel _ => false
  | .updateStatus checkInId target =>
    match findOne (fun c => c.checkInId == checkInId) s.checkIns with
    | none => true
    | some (_, found) => activeEntry found && target != .cancelled && target != .noShow

/-- The invariant of the forward-only runs: clinic ids are unique (the schema's
unique index), every clinic counter is the number of the clinic's active
entries, and no active entry carries a serviceEndTime. -/
def CountersMatch (s : State) : Prop :=
  (s.clinics.map (fun c => c.clinicId)).Nodup
    ∧ (∀ c ∈ s.clinics, c.currentQueueSize = (activeQueueSize c.clinicId s.checkIns : Int))
    ∧ ∀ e ∈ s.checkIns, activeEntry e = true → e.serviceEndTime = none

/-- The steps of day `today` that keep the entries of the clinic-day
`(clinicId, today)` in the current queue: check-in, call-next, a status update
to waiting or called, and any status update or cancel of an entry outside this
clinic-day. -/
def queuedStep (clinicId : String) (today : Nat) (s : State) (env : Env) (op : Op) : Bool :=
  env.today == today && decide (today ≤ env.now) &&
    match op with
    | .checkIn _ => true
    | .callNext _ => true
    | .updateStatus checkInId target =>
      (match findOne (fun c => c.checkInId == checkInId) s.checkIns with
       | none => true
       | some (_, found) =>
         !createdToday clinicId today found || target == .waiting || target == .called)
    | .cancel checkInId =>
      (match findOne (fun c => c.checkInId == checkInId) s.checkIns with
       | none => true
       | some (_, found) => !createdToday clinicId today found)

/-- The queuePositions of the entries of one clinic-day, in creation order. -/
def positionsOf (clinicId : String) (today : Nat) (checkIns : List CheckIn) : List Nat :=
  (checkIns.filter (createdToday clinicId today)).map (fun c => c.queuePosition)

/-- The invariant of the runs that keep a clinic-day queued: every entry of
the clinic-day is waiting or called, and the queuePositions of the clinic-day
are 1, 2, ..., n in creation order. -/
def PositionsInOrder (clinicId : String) (today : Nat) (s : State) : Prop :=
  (∀ e ∈ s.checkIns, createdToday clinicId today e = true →
      e.status = .waiting ∨ e.status = .called)
    ∧ positionsOf clinicId today s.checkIns
        = List.range' 1 (positionsOf clinicId today s.checkIns).length

/-- The body of a check-in request passes everything but the capacity test in
state `s`: it carries `patientInfo`, the patient block succeeds, `visitReason`
is a non-empty string, `priority` is absent or of the enum, the new
`checkInId` is not taken, and the numbers of `locationData` cast. -/
def requestAccepted (env : Env) (req : CheckInRequest) (s : State) : Bool :=
  match req.patientInfo with
  | none => false
  | some info =>
    (resolvePatient env info s.patients).isSome
      && (match req.visitReason with
          | some visitReason => visitReason != ""
          | none => false)
      && (Priority.ofString? (orNormal req.priority)).isSome
      && !s.checkIns.any (fun c => c.checkInId == env.newCheckInId)
      && locationCasts req.locationData

/-- Successive check-ins with no other operation in between: the final
database and the answers in order. -/
def checkInAll : List (Env × CheckInRequest) → State → State × List Response
  | [], s => (s, [])
  | (env, req) :: rest, s =>
    let first := checkIn env req s
    let others := checkInAll rest first.1
    (others.1, first.2 :: others.2)

/-- Successive requests for clinic `clinicId` on day `today`, served with the
event sink registered, each one accepted (see `requestAccepted`) in the state
it meets. -/
def successiveRequests (clinicId : String) (today : Nat) :
    List (Env × CheckInRequest) → State → Bool
  | [], _ => true
  | (env, req) :: rest, s =>
    req.clinicId == clinicId && env.today == today && decide (today ≤ env.now) && env.ioPresent
      && requestAccepted env req s
      && successiveRequests clinicId today rest (checkIn env req s).1

/-! ## A small clinic used in the examples -/

/-- An active clinic with the schema's default average wait of 15 minutes. -/
def demoClinic : Clinic :=
  { clinicId := "clinic"
    isActive := true
    avgWaitTime := 15
    currentQueueSize := 0
    maxQueueSize := 50
    enableGPSVerification := false
    maxDistanceMeters := 500
    totalCheckIns := 0
    totalPatientsServed := 0 }

/-- The database holding `demoClinic` and nothing else. -/
def demoState : State :=
  { clinics := [demoClinic], patients := [], checkIns := [] }

/-- The environment of a request served by `src/server.js` (which registers
`io`) at instant `now` of the day starting at 0, `uuidv4()` handing out `id`. -/
def demoEnv (id : String) (now : Nat) : Env :=
  { now := now
    today := 0
    newPatientId := id
    newCheckInId := id
    ioPresent := true
    calculateDistance := fun _ _ _ _ => 0 }

/-- A check-in request of a new patient at `demoClinic`. -/
def demoRequest (priority : Option String) : CheckInRequest :=
  { clinicId := "clinic"
    patientInfo := some { patientId := none, firstName := some "Pat", lastName := some "Doe" }
    visitReason := some "consultation"
    locationData := none
    hasAppointment := none
    appointmentTime := none
    priority := priority }

/-- The database after P1 alone has checked in at `demoClinic`. -/
def afterP1 : State :=
  run [(demoEnv "P1" 1000, .checkIn (demoRequest none))] demoState

/-- The entry stored for P1 by the first check-in at `demoClinic`. -/
def p1First : CheckIn :=
  preSave 1000 (newCheckIn (demoEnv "P1" 1000) (demoRequest none)
    { patientId := "P1", firstName := "Pat", lastName := "Doe" } "consultation" .normal 1 15
    (false, none))

/-- The database after P1 has checked in and has been marked completed. -/
def afterP1Completed : State :=
  run [(demoEnv "P1" 1000, .checkIn (demoRequest none)),
       (demoEnv "staff" 2000, .updateStatus "P1" .completed)] demoState

/-- The entry stored for P2 when P2 checks in at instant 3000 into a current
queue that is empty. -/
def p2First : CheckIn :=
  preSave 3000 (newCheckIn (demoEnv "P2" 3000) (demoRequest none)
    { patientId := "P2", firstName := "Pat", lastName := "Doe" } "consultation" .normal 1 15
    (false, none))

/-- Scenario A: P1 then P2 check in at `demoClinic`, both with the default
priority. -/
def scenarioA : State :=
  run [(demoEnv "P1" 1000, .checkIn (demoRequest none)),
       (demoEnv "P2" 2000, .checkIn (demoRequest none))] demoState

/-- The two requests of Scenario A. -/
def scenarioARequests : List (Env × CheckInRequest) :=
  [(demoEnv "P1" 1000, demoRequest none), (demoEnv "P2" 2000, demoRequest none)]

/-- Scenario B: P1 checks in with priority normal, then P2 with priority
emergency. -/
def scenarioB : State :=
  run [(demoEnv "P1" 1000, .checkIn (demoRequest (some "normal"))),
       (demoEnv "P2" 2000, .checkIn (demoRequest (some "emergency")))] demoState

/-- Scenario C: a clinic with maxQueueSize 1 into which P1 has checked in. -/
def scenarioC : State :=
  run [(demoEnv "P1" 1000, .checkIn (demoRequest none))]
    { demoState with clinics := [{ demoClinic with maxQueueSize := 1 }] }

/-- A run through `demoClinic`: P1 and P2 check in, P1 is called, put in
service and completed. -/
def forwardRun : List (Env × Op) :=
  [(demoEnv "P1" 1000, .checkIn (demoRequest none)),
   (demoEnv "P2" 2000, .checkIn (demoRequest none)),
   (demoEnv "staff" 3000, .callNext "clinic"),
   (demoEnv "staff" 4000, .updateStatus "P1" .inService),
   (demoEnv "staff" 5000, .updateStatus "P1" .completed)]

/-- A legal story of `demoClinic`: P1 and P2 check in, P1 is called, served
and completed, then P3 checks in. -/
def servedThenCheckIn : List (Env × Op) :=
  [(demoEnv "P1" 1000, .checkIn (demoRequest none)),
   (demoEnv "P2" 2000, .checkIn (demoRequest none)),
   (demoEnv "staff" 3000, .callNext "clinic"),
   (demoEnv "staff" 4000, .updateStatus "P1" .inService),
   (demoEnv "staff" 5000, .updateStatus "P1" .completed),
   (demoEnv "P3" 6000, .checkIn (demoRequest none))]

/-- A run that keeps the day's queue of `demoClinic` intact: P1 and P2 check
in, P1 is called, P3 checks in. -/
def queuedRun : List (Env × Op) :=
  [(demoEnv "P1" 1000, .checkIn (demoRequest none)),
   (demoEnv "P2" 2000, .checkIn (demoRequest none)),
   (demoEnv "staff" 3000, .callNext "clinic"),
   (demoEnv "P3" 4000, .checkIn (demoRequest none))]
/-! ## Notions and examples for the lifecycle properties -/

/-- The order of the specification (section 4.2): `a` comes strictly before
`b` when its priority rank is the greater one, or the ranks are equal and its
queuePosition is the smaller one. -/
def specBefore (a b : CheckIn) : Bool :=
  decide (priorityRank b.priority < priorityRank a.priority)
    || (priorityRank a.priority == priorityRank b.priority
        && decide (a.queuePosition < b.queuePosition))

/-- The filter of the position query without its position bound: the entries
of the clinic whose status is waiting or called. -/
def queuedIn (clinicId : String) (c : CheckIn) : Bool :=
  c.clinicId == clinicId && (c.status == .waiting || c.status == .called)

/-- The property of one entry that `actualWaitTime` is derived: it is set
exactly when `serviceStartTime` is, to the rounded minutes between
`checkInTime` and `serviceStartTime`. -/
def WaitDerived (c : CheckIn) : Prop :=
  (c.actualWaitTime.isSome ↔ c.serviceStartTime.isSome)
    ∧ ∀ start, c.serviceStartTime = some start →
        c.actualWaitTime = some (roundMinutes ((start : Int) - (c.checkInTime : Int)))

/-- A "created" answer with its `locationVerified` flag blanked; any other
answer as it is. -/
def Response.withoutVerified : Response → Response
  | .created checkInId queuePosition estimatedWaitTime _ =>
    .created checkInId queuePosition estimatedWaitTime false
  | r => r

/-- A stored entry with its `locationData` blanked. -/
def CheckIn.withoutLocation (c : CheckIn) : CheckIn :=
  { c with locationData := none }

/-- The environment of a request served by `src/api/index.js`, which never
registers `io`. -/
def serverlessEnv (id : String) (now : Nat) : Env :=
  { demoEnv id now with ioPresent := false }

/-- P1 checks in, is called at 2000 and is put back to waiting. -/
def calledThenWaiting : State :=
  run [(demoEnv "P1" 1000, .checkIn (demoRequest none)),
       (demoEnv "staff" 2000, .callNext "clinic"),
       (demoEnv "staff" 3000, .updateStatus "P1" .waiting)] demoState

/-- P1 checks in with priority low, then P2 with priority normal. -/
def lowThenNormal : State :=
  run [(demoEnv "P1" 1000, .checkIn (demoRequest (some "low"))),
       (demoEnv "P2" 2000, .checkIn (demoRequest (some "normal")))] demoState

/-- P1 checks in, is called and put in service two and a half minutes after
the check-in, then completed. -/
def servedRun : List (Env × Op) :=
  [(demoEnv "P1" 1000, .checkIn (demoRequest none)),
   (demoEnv "staff" 61000, .callNext "clinic"),
   (demoEnv "staff" 151000, .updateStatus "P1" .inService),
   (demoEnv "staff" 400000, .updateStatus "P1" .completed)]

/-! ## Notions for the frame and the unfinished-entry counter -/

/-- The fields of an entry that are given at creation: checkInId, clinicId,
patientId, priority, queuePosition, checkInTime and estimatedWaitTime. -/
def CheckIn.createdFields (c : CheckIn) :
    String × String × String × Priority × Nat × Nat × Int :=
  (c.checkInId, c.clinicId, c.patientId, c.priority, c.queuePosition, c.checkInTime,
    c.estimatedWaitTime)

/-- The number of entries of a clinic whose serviceEndTime is unset. -/
def unfinishedCount (clinicId : String) (checkIns : List CheckIn) : Nat :=
  countDocuments (fun c => c.clinicId == clinicId && c.serviceEndTime.isNone) checkIns

/-- The invariant of all runs: clinic ids are unique (the schema's unique
index) and every clinic counter is the number of the clinic's entries whose
serviceEndTime is unset. -/
def CountsUnfinished (s : State) : Prop :=
  (s.clinics.map (fun c => c.clinicId)).Nodup
    ∧ ∀ c ∈ s.clinics, c.currentQueueSize = (unfinishedCount c.clinicId s.checkIns : Int)

/-- A day at `demoClinic` with every operation: P1, P2 and P3 check in, P1 is
called, served and completed, P2 is cancelled, P3 is called and marked
no-show. -/
def mixedRun : List (Env × Op) :=
  [(demoEnv "P1" 1000, .checkIn (demoRequest none)),
   (demoEnv "P2" 2000, .checkIn (demoRequest none)),
   (demoEnv "P3" 3000, .checkIn (demoRequest none)),
   (demoEnv "staff" 4000, .callNext "clinic"),
   (demoEnv "staff" 5000, .updateStatus "P1" .inService),
   (demoEnv "staff" 6000, .updateStatus "P1" .completed),
   (demoEnv "P2" 7000, .cancel "P2"),
   (demoEnv "staff" 8000, .callNext "clinic"),
   (demoEnv "staff" 9000, .updateStatus "P3" .noShow)]

/-! ## Examples for the ordering, capacity and location properties -/

/-- P1, P2 and P3 check in at 1000, 2000 and 3000; P1 and then P2 are called,
served and completed; P4 checks in at 6000. -/
def lateCheckInRun : List (Env × Op) :=
  [(demoEnv "P1" 1000, .checkIn (demoRequest none)),
   (demoEnv "P2" 2000, .checkIn (demoRequest none)),
   (demoEnv "P3" 3000, .checkIn (demoRequest none)),
   (demoEnv "staff" 3100, .callNext "clinic"),
   (demoEnv "staff" 3200, .updateStatus "P1" .inService),
   (demoEnv "staff" 3300, .updateStatus "P1" .completed),
   (demoEnv "staff" 3400, .callNext "clinic"),
   (demoEnv "staff" 3500, .updateStatus "P2" .inService),
   (demoEnv "staff" 3600, .updateStatus "P2" .completed),
   (demoEnv "P4" 6000, .checkIn (demoRequest none))]

/-- The environment of a request served at `now` on the day that starts at
86400000, one day after the day of `demoEnv`. -/
def nextDayEnv (id : String) (now : Nat) : Env :=
  { demoEnv id now with today := 86400000 }

/-- P1 and P2 have checked in and P1 has been called, served and completed. -/
def afterP1Served : State :=
  run [(demoEnv "P1" 1000, .checkIn (demoRequest none)),
       (demoEnv "P2" 2000, .checkIn (demoRequest none)),
       (demoEnv "staff" 3000, .callNext "clinic"),
       (demoEnv "staff" 4000, .updateStatus "P1" .inService),
       (demoEnv "staff" 5000, .updateStatus "P1" .completed)] demoState

/-- A location whose three numbers cast. -/
def locationNumbers : LocationInput :=
  { latitude := .number 6927, longitude := .number 79861, accuracy := .number 10 }

/-- A location whose latitude is not a number. -/
def locationGarbled : LocationInput :=
  { latitude := .notANumber, longitude := .number 79861, accuracy := .number 10 }

/-- The database holding `demoClinic` with GPS verification enabled. -/
def gpsState : State :=
  { demoState with clinics := [{ demoClinic with enableGPSVerification := true }] }

/-- The requests of P2 and P3, in this order. -/
def laterRequests : List (Env × CheckInRequest) :=
  [(demoEnv "P2" 2000, demoRequest none), (demoEnv "P3" 3000, demoRequest none)]

end MediQueue

/-! # Properties -/

namespace MediQueue

/-! ## The call-next order -/

theorem compareStrings_priority (p q : Priority) :
    compareStrings p.toString.data q.toString.data = decide (stringOrder p < stringOrder q) := by
  cases p <;> cases q <;> decide

theorem toString_beq (p q : Priority) : (p.toString == q.toString) = decide (p = q) := by
  cases p <;> cases q <;> decide

theorem stringOrder_inj (p q : Priority) (h : stringOrder p = stringOrder q) : p = q := by
  cases p <;> cases q <;> first | rfl | (exact absurd h (by decide))

theorem sortsBefore_iff (a b : CheckIn) :
    sortsBefore a b = true ↔
      stringOrder b.priority < stringOrder a.priority ∨
        (stringOrder a.priority = stringOrder b.priority ∧ a.queuePosition < b.queuePosition) := by
  unfold sortsBefore
  rw [compareStrings_priority, toString_beq]
  simp only [Bool.or_eq_true, Bool.and_eq_true, decide_eq_true_eq]
  constructor
  · rintro (h | ⟨h1, h2⟩)
    · exact Or.inl h
    · exact Or.inr ⟨by rw [h1], h2⟩
  · rintro (h | ⟨h1, h2⟩)
    · exact Or.inl h
    · exact Or.inr ⟨stringOrder_inj _ _ h1, h2⟩

theorem sortsBefore_irrefl (a : CheckIn) : sortsBefore a a = false := by
  rw [Bool.eq_false_iff]; intro h; rw [sortsBefore_iff] at h; omega

theorem sortsBefore_asymm (a b : CheckIn) (h : sortsBefore a b = true) : sortsBefore b a = false := by
  rw [Bool.eq_false_iff]; intro h2; rw [sortsBefore_iff] at h h2; omega

theorem sortsBefore_negtrans (a b c : CheckIn) (h1 : sortsBefore a b = false)
    (h2 : sortsBefore b c = false) : sortsBefore a c = false := by
  rw [Bool.eq_false_iff] at *
  rw [Ne, sortsBefore_iff] at *
  omega

theorem findOne_some {α : Type} (p : α → Bool) (l : List α) (i : Nat) (a : α)
    (h : findOne p l = some (i, a)) : l[i]? = some a ∧ p a = true := by
  induction l generalizing i with
  | nil => simp [findOne] at h
  | cons x xs ih =>
    unfold findOne at h
    by_cases hx : p x = true
    · simp only [hx, if_true, Option.some.injEq, Prod.mk.injEq] at h
      obtain ⟨rfl, rfl⟩ := h
      exact ⟨by simp, hx⟩
    · simp only [hx] at h
      cases hr : findOne p xs with
      | none => simp [hr] at h
      | some r =>
        obtain ⟨j, b⟩ := r
        simp only [hr, Bool.false_eq_true, if_false, Option.some.injEq, Prod.mk.injEq] at h
        obtain ⟨rfl, rfl⟩ := h
        have := ih j hr
        simpa using this

theorem findOne_none {α : Type} (p : α → Bool) (l : List α)
    (h : findOne p l = none) : ∀ a ∈ l, p a = false := by
  induction l with
  | nil => simp
  | cons x xs ih =>
    unfold findOne at h
    by_cases hx : p x = true
    · simp [hx] at h
    · simp only [hx] at h
      cases hr : findOne p xs with
      | none =>
        intro a ha
        rcases List.mem_cons.1 ha with rfl | ha
        · simpa using hx
        · exact ih hr a ha
      | some r => obtain ⟨j, b⟩ := r; simp [hr] at h

theorem findOneSorted_none {α : Type} (p : α → Bool) (before : α → α → Bool) (l : List α)
    (h : findOneSorted p before l = none) : ∀ a ∈ l, p a = false := by
  induction l with
  | nil => simp
  | cons x xs ih =>
    unfold findOneSorted at h
    cases hr : findOneSorted p before xs with
    | none =>
      simp only [hr] at h
      intro a ha
      rcases List.mem_cons.1 ha with rfl | ha
      · by_cases hx : p a = true
        · simp [hx] at h
        · simpa using hx
      · exact ih hr a ha
    | some r =>
      obtain ⟨j, b⟩ := r
      simp only [hr] at h
      split at h <;> simp at h

theorem findOneSorted_some {α : Type} (p : α → Bool) (before : α → α → Bool)
    (hasymm : ∀ a b, before a b = true → before b a = false)
    (hirr : ∀ a, before a a = false)
    (htrans : ∀ a b c, before a b = false → before b c = false → before a c = false)
    (l : List α) (i : Nat) (b : α) (h : findOneSorted p before l = some (i, b)) :
    l[i]? = some b ∧ p b = true ∧ ∀ w ∈ l, p w = true → before w b = false := by
  induction l generalizing i b with
  | nil => simp [findOneSorted] at h
  | cons x xs ih =>
    unfold findOneSorted at h
    cases hr : findOneSorted p before xs with
    | none =>
      simp only [hr] at h
      by_cases hx : p x = true
      · simp only [hx, if_true, Option.some.injEq, Prod.mk.injEq] at h
        obtain ⟨rfl, rfl⟩ := h
        refine ⟨by simp, hx, ?_⟩
        intro w hw hpw
        rcases List.mem_cons.1 hw with rfl | hw
        · exact hirr _
        · have := findOneSorted_none p before xs hr w hw
          rw [this] at hpw; exact absurd hpw (by simp)
      · simp [hx] at h
    | some r =>
      obtain ⟨j, c⟩ := r
      obtain ⟨hget, hpc, hmin⟩ := ih j c hr
      simp only [hr] at h
      by_cases hsel : (p x && !before c x) = true
      · simp only [hsel, if_true, Option.some.injEq, Prod.mk.injEq] at h
        obtain ⟨rfl, rfl⟩ := h
        simp only [Bool.and_eq_true, Bool.not_eq_true', ] at hsel
        refine ⟨by simp, hsel.1, ?_⟩
        intro w hw hpw
        rcases List.mem_cons.1 hw with rfl | hw
        · exact hirr _
        · exact htrans w c _ (hmin w hw hpw) hsel.2
      · simp only [hsel, Bool.false_eq_true, if_false, Option.some.injEq, Prod.mk.injEq] at h
        obtain ⟨rfl, rfl⟩ := h
        refine ⟨by simpa using hget, hpc, ?_⟩
        intro w hw hpw
        rcases List.mem_cons.1 hw with rfl | hw
        · simp only [Bool.and_eq_true, Bool.not_eq_true', not_and, Bool.not_eq_false] at hsel
          exact hasymm _ _ (hsel hpw)
        · exact hmin w hw hpw

/-! ## C1, C2: which entry call-next selects -/


/-- C1 (code at the failing input): in Scenario B the stored entries are P1
(normal, position 1) and P2 (emergency, position 2), both waiting; call-next
selects and calls P1, whose priority rank 1 is below the rank 3 of P2. -/
theorem callNext_scenarioB_selects_normal :
    scenarioB.checkIns.map (fun c => (c.checkInId, c.priority, c.queuePosition, c.status))
        = [("P1", Priority.normal, 1, Status.waiting), ("P2", Priority.emergency, 2, Status.waiting)]
      ∧ (nextCheckIn "clinic" scenarioB.checkIns).map (fun r => r.2.checkInId) = some "P1"
      ∧ (callNext (demoEnv "staff" 3000) "clinic" scenarioB).2 = Response.patientCalled "P1"
      ∧ priorityRank Priority.normal < priorityRank Priority.emergency := by
  decide

theorem set_getElem? {α : Type} (l : List α) (i : Nat) (a b : α) (h : l[i]? = some a) :
    (l.set i b)[i]? = some b := by
  have hi : i < l.length := by
    rcases Nat.lt_or_ge i l.length with hlt | hge
    · exact hlt
    · rw [List.getElem?_eq_none hge] at h; exact absurd h (by simp)
  rw [List.getElem?_set]; simp [hi]

/-- C2 (counterexample): P3 (position 3, checked in at 3000) and P4
(position 2, checked in at 6000, after P1 and P2 were completed) are the
waiting entries, both of priority normal; call-next selects and calls P4, the
later check-in. -/
theorem callNext_selects_later_checkIn :
    (run lateCheckInRun demoState).checkIns.map
        (fun c => (c.checkInId, c.priority, c.queuePosition, c.status, c.checkInTime))
        = [("P1", Priority.normal, 1, Status.completed, 1000),
           ("P2", Priority.normal, 2, Status.completed, 2000),
           ("P3", Priority.normal, 3, Status.waiting, 3000),
           ("P4", Priority.normal, 2, Status.waiting, 6000)]
      ∧ (nextCheckIn "clinic" (run lateCheckInRun demoState).checkIns).map
          (fun r => (r.2.checkInId, r.2.queuePosition, r.2.checkInTime)) = some ("P4", 2, 6000)
      ∧ (callNext (demoEnv "staff" 7000) "clinic" (run lateCheckInRun demoState)).2
          = Response.patientCalled "P4" := by
  decide

/-- C2 (amended): when the clinic has a waiting entry and all its waiting
entries have the same priority, call-next selects a waiting entry of the
clinic whose queuePosition is the smallest among them, marks it called and
(with the event sink registered) returns it; the selected entry is the
earliest check-in among them whenever, among the clinic's waiting entries, a
smaller or equal queuePosition goes with an earlier or equal checkInTime. -/
theorem callNext_same_priority_selects_smallest_position (env : Env) (clinicId : String)
    (s : State)
    (hwaiting : ∃ c ∈ s.checkIns, isWaitingIn clinicId c = true)
    (hsame : ∀ a ∈ s.checkIns, ∀ b ∈ s.checkIns, isWaitingIn clinicId a = true →
      isWaitingIn clinicId b = true → a.priority = b.priority) :
    ∃ i next, nextCheckIn clinicId s.checkIns = some (i, next)
      ∧ s.checkIns[i]? = some next
      ∧ next.clinicId = clinicId ∧ next.status = Status.waiting
      ∧ (∀ w ∈ s.checkIns, isWaitingIn clinicId w = true → next.queuePosition ≤ w.queuePosition)
      ∧ (∃ saved, (callNext env clinicId s).1.checkIns[i]? = some saved
          ∧ saved.status = Status.called ∧ saved.checkInId = next.checkInId
          ∧ saved.queuePosition = next.queuePosition)
      ∧ (env.ioPresent = true →
          (callNext env clinicId s).2 = Response.patientCalled next.checkInId)
      ∧ ((∀ a ∈ s.checkIns, ∀ b ∈ s.checkIns, isWaitingIn clinicId a = true →
            isWaitingIn clinicId b = true → a.queuePosition ≤ b.queuePosition →
            a.checkInTime ≤ b.checkInTime) →
          ∀ w ∈ s.checkIns, isWaitingIn clinicId w = true →
            next.checkInTime ≤ w.checkInTime) := by
  cases hsel : nextCheckIn clinicId s.checkIns with
  | none =>
    obtain ⟨c, hc, hw⟩ := hwaiting
    have := findOneSorted_none _ _ _ hsel c hc
    rw [this] at hw; exact absurd hw (by simp)
  | some r =>
    obtain ⟨i, next⟩ := r
    obtain ⟨hget, hp, hmin⟩ := findOneSorted_some _ _ sortsBefore_asymm sortsBefore_irrefl
      sortsBefore_negtrans _ _ _ hsel
    have hmem : next ∈ s.checkIns := List.getElem?_mem hget
    have hp' := hp
    simp only [isWaitingIn, Bool.and_eq_true, beq_iff_eq] at hp'
    have hsmallest : ∀ w ∈ s.checkIns, isWaitingIn clinicId w = true →
        next.queuePosition ≤ w.queuePosition := by
      intro w hw hpw
      have h1 := hmin w hw hpw
      have h2 := hsame w hw next hmem hpw hp
      rw [Bool.eq_false_iff, Ne, sortsBefore_iff, h2] at h1
      omega
    refine ⟨i, next, rfl, hget, hp'.1, hp'.2, hsmallest, ?_, ?_,
      fun hord w hw hpw => hord next hmem w hw hp hpw (hsmallest w hw hpw)⟩
    · refine ⟨preSave env.now { next with status := .called, calledTime := some env.now }, ?_, ?_⟩
      · simp only [callNext, hsel]
        split <;> exact set_getElem? _ _ _ _ hget
      · simp only [preSave]
        split <;> simp
    · intro hio
      simp only [callNext, hsel, hio, if_true]
      simp only [preSave]
      split <;> simp

/-- C2 (amended), at Scenario A: the hypotheses hold there and the theorem
applies. -/
theorem callNext_same_priority_selects_smallest_position_witness :
    (∃ c ∈ scenarioA.checkIns, isWaitingIn "clinic" c = true)
      ∧ (∀ a ∈ scenarioA.checkIns, ∀ b ∈ scenarioA.checkIns, isWaitingIn "clinic" a = true →
          isWaitingIn "clinic" b = true → a.priority = b.priority)
      ∧ ∃ i next, nextCheckIn "clinic" scenarioA.checkIns = some (i, next)
          ∧ ∀ w ∈ scenarioA.checkIns, isWaitingIn "clinic" w = true →
              next.queuePosition ≤ w.queuePosition := by
  refine ⟨by decide, by decide, ?_⟩
  obtain ⟨i, next, h1, _, _, _, h5, _⟩ :=
    callNext_same_priority_selects_smallest_position (demoEnv "staff" 3000) "clinic" scenarioA
      (by decide) (by decide)
  exact ⟨i, next, h1, h5⟩

/-! ## The check-in handler, case by case -/


/-- What a check-in does to the database: nothing to the clinics and check-ins,
or one new waiting entry and one increment. -/
theorem checkIn_cases (env : Env) (req : CheckInRequest) (s : State) :
    ((checkIn env req s).1.checkIns = s.checkIns ∧ (checkIn env req s).1.clinics = s.clinics
        ∧ ∀ id pos est v, (checkIn env req s).2 ≠ Response.created id pos est v)
    ∨ ∃ i clinic doc,
        findOne (fun c => c.clinicId == req.clinicId && c.isActive) s.clinics = some (i, clinic)
        ∧ clinic.currentQueueSize < clinic.maxQueueSize
        ∧ (checkIn env req s).1.checkIns = s.checkIns ++ [doc]
        ∧ (checkIn env req s).1.clinics = updateClinic req.clinicId incOnCheckIn s.clinics
        ∧ doc.queuePosition
            = countDocuments (inCurrentQueue req.clinicId env.today) s.checkIns + 1
        ∧ doc.estimatedWaitTime = (doc.queuePosition : Int) * clinic.avgWaitTime
        ∧ doc.checkInId = env.newCheckInId ∧ doc.clinicId = req.clinicId
        ∧ doc.status = Status.waiting ∧ doc.createdAt = env.now
        ∧ doc.serviceEndTime = none
        ∧ (checkIn env req s).2
            = if env.ioPresent then
                Response.created env.newCheckInId doc.queuePosition doc.estimatedWaitTime
                  (verifyLocation env clinic req.locationData).1
              else Response.serverError := by
  unfold checkIn
  cases hc : findOne (fun c => c.clinicId == req.clinicId && c.isActive) s.clinics with
  | none => left; simp
  | some r =>
    obtain ⟨i, clinic⟩ := r
    simp only []
    by_cases hfull : clinic.currentQueueSize ≥ clinic.maxQueueSize
    · left; simp [hfull]
    · simp only [hfull, if_false]
      cases hinfo : req.patientInfo with
      | none => left; simp
      | some info =>
        simp only []
        cases hpat : resolvePatient env info s.patients with
        | none => left; simp
        | some pp =>
          obtain ⟨patients, patient⟩ := pp
          simp only []
          split
          · rename_i visitReason priority hv hp
            by_cases hbad : visitReason = "" ∨
                (s.checkIns.any fun c => c.checkInId == env.newCheckInId) = true
                  ∨ locationCasts req.locationData = false
            · left; simp only [hbad, if_true]; simp
            · right
              simp only [hbad, if_false]
              refine ⟨i, clinic, preSave env.now (newCheckIn env req patient visitReason priority
                (countDocuments (inCurrentQueue req.clinicId env.today) s.checkIns + 1)
                (((countDocuments (inCurrentQueue req.clinicId env.today) s.checkIns + 1 : Nat) : Int)
                  * clinic.avgWaitTime)
                (verifyLocation env clinic req.locationData)), rfl, not_le.mp hfull, ?_, ?_, ?_, ?_, ?_, ?_, ?_, ?_, ?_, ?_⟩
              · split <;> rfl
              · split <;> rfl
              · simp [preSave, newCheckIn]
              · simp [preSave, newCheckIn]
              · simp [preSave, newCheckIn]
              · simp [preSave, newCheckIn]
              · simp [preSave, newCheckIn]
              · simp [preSave, newCheckIn]
              · simp [preSave, newCheckIn]
              · simp only [preSave]
                split <;> rfl
          · left; simp

/-! ## What `save` leaves alone -/

@[simp] theorem preSave_status (now : Nat) (c : CheckIn) : (preSave now c).status = c.status := by
  simp only [preSave]; split <;> (try split) <;> rfl

@[simp] theorem preSave_checkInId (now : Nat) (c : CheckIn) :
    (preSave now c).checkInId = c.checkInId := by
  simp only [preSave]; split <;> (try split) <;> rfl

@[simp] theorem preSave_clinicId (now : Nat) (c : CheckIn) :
    (preSave now c).clinicId = c.clinicId := by
  simp only [preSave]; split <;> (try split) <;> rfl

@[simp] theorem preSave_queuePosition (now : Nat) (c : CheckIn) :
    (preSave now c).queuePosition = c.queuePosition := by
  simp only [preSave]; split <;> (try split) <;> rfl

@[simp] theorem preSave_createdAt (now : Nat) (c : CheckIn) :
    (preSave now c).createdAt = c.createdAt := by
  simp only [preSave]; split <;> (try split) <;> rfl

@[simp] theorem preSave_serviceEndTime (now : Nat) (c : CheckIn) :
    (preSave now c).serviceEndTime = c.serviceEndTime := by
  simp only [preSave]; split <;> (try split) <;> rfl

@[simp] theorem stampStatus_status (now : Nat) (t : Status) (c : CheckIn) :
    (stampStatus now t c).1.status = c.status := by
  unfold stampStatus; split_ifs <;> rfl

@[simp] theorem stampStatus_checkInId (now : Nat) (t : Status) (c : CheckIn) :
    (stampStatus now t c).1.checkInId = c.checkInId := by
  unfold stampStatus; split_ifs <;> rfl

@[simp] theorem stampStatus_clinicId (now : Nat) (t : Status) (c : CheckIn) :
    (stampStatus now t c).1.clinicId = c.clinicId := by
  unfold stampStatus; split_ifs <;> rfl

@[simp] theorem stampStatus_queuePosition (now : Nat) (t : Status) (c : CheckIn) :
    (stampStatus now t c).1.queuePosition = c.queuePosition := by
  unfold stampStatus; split_ifs <;> rfl

@[simp] theorem stampStatus_createdAt (now : Nat) (t : Status) (c : CheckIn) :
    (stampStatus now t c).1.createdAt = c.createdAt := by
  unfold stampStatus; split_ifs <;> rfl

theorem findOne_of_exists {α : Type} (p : α → Bool) (l : List α)
    (h : ∃ a ∈ l, p a = true) : ∃ i a, findOne p l = some (i, a) := by
  cases hf : findOne p l with
  | none =>
    obtain ⟨a, ha, hp⟩ := h
    have := findOne_none p l hf a ha
    rw [this] at hp; exact absurd hp (by simp)
  | some r => exact ⟨r.1, r.2, rfl⟩

/-! ## C3 -/

/-- C3 (counterexample): the pair waiting -> completed is not in the
transition table, yet on the fresh waiting entry P1 the status update to
completed is answered with success and stores status completed. -/
theorem updateStatus_waiting_to_completed_succeeds :
    specLegalTransition Status.waiting Status.completed = false
      ∧ afterP1.checkIns.map (fun c => (c.checkInId, c.status)) = [("P1", Status.waiting)]
      ∧ (updateStatus (demoEnv "staff" 2000) "P1" Status.completed afterP1).2.updatedStatus?
          = some Status.completed
      ∧ (updateStatus (demoEnv "staff" 2000) "P1" Status.completed afterP1).1.checkIns.map
          (fun c => (c.checkInId, c.status)) = [("P1", Status.completed)] := by
  decide

/-- C3 (amended): for every stored entry and every target status of the enum,
whatever the entry's current status, the status update stores the target as
the entry's status and, with the event sink registered, answers with the
updated entry; no pair of statuses is refused. -/
theorem updateStatus_accepts_every_target (env : Env) (checkInId : String) (target : Status)
    (s : State) (hfound : ∃ c ∈ s.checkIns, c.checkInId = checkInId) :
    ∃ i found saved,
      findOne (fun c => c.checkInId == checkInId) s.checkIns = some (i, found)
        ∧ (updateStatus env checkInId target s).1.checkIns = s.checkIns.set i saved
        ∧ (updateStatus env checkInId target s).1.checkIns[i]? = some saved
        ∧ saved.checkInId = checkInId
        ∧ saved.status = target
        ∧ (env.ioPresent = true →
            (updateStatus env checkInId target s).2 = Response.statusUpdated saved) := by
  obtain ⟨i, found, hf⟩ := findOne_of_exists (fun c => c.checkInId == checkInId) s.checkIns
    (by obtain ⟨c, hc, hid⟩ := hfound; exact ⟨c, hc, by simpa using hid⟩)
  obtain ⟨hget, hp⟩ := findOne_some _ _ _ _ hf
  refine ⟨i, found,
    preSave env.now (stampStatus env.now target { found with status := target }).1, hf, ?_, ?_, ?_,
    ?_, ?_⟩
  · simp only [updateStatus, hf]; split <;> rfl
  · simp only [updateStatus, hf]; split <;> exact set_getElem? _ _ _ _ hget
  · simpa using hp
  · simp
  · intro hio; simp only [updateStatus, hf, hio, if_true]

/-- C3 (amended), at the completed entry of `demoClinic`: the update back to
waiting is accepted. -/
theorem updateStatus_accepts_every_target_witness :
    (∃ c ∈ afterP1Completed.checkIns, c.checkInId = "P1")
      ∧ ∃ (i : Nat) (saved : CheckIn),
          (updateStatus (demoEnv "staff" 3000) "P1" Status.waiting afterP1Completed).1.checkIns[i]?
            = some saved ∧ saved.status = Status.waiting := by
  refine ⟨by decide, ?_⟩
  obtain ⟨i, _, saved, _, _, h3, _, h5, _⟩ :=
    updateStatus_accepts_every_target (demoEnv "staff" 3000) "P1" Status.waiting afterP1Completed
      (by decide)
  exact ⟨i, saved, h3, h5⟩

/-! ## C4, C6, C8: position, estimate and capacity at check-in -/

theorem checkIn_appended (env : Env) (req : CheckInRequest) (s : State) (doc : CheckIn)
    (h : (checkIn env req s).1.checkIns = s.checkIns ++ [doc]) :
    ∃ i clinic,
      findOne (fun c => c.clinicId == req.clinicId && c.isActive) s.clinics = some (i, clinic)
        ∧ clinic.currentQueueSize < clinic.maxQueueSize
        ∧ (checkIn env req s).1.clinics = updateClinic req.clinicId incOnCheckIn s.clinics
        ∧ doc.queuePosition
            = countDocuments (inCurrentQueue req.clinicId env.today) s.checkIns + 1
        ∧ doc.estimatedWaitTime = (doc.queuePosition : Int) * clinic.avgWaitTime
        ∧ (checkIn env req s).2
            = if env.ioPresent then
                Response.created env.newCheckInId doc.queuePosition doc.estimatedWaitTime
                  (verifyLocation env clinic req.locationData).1
              else Response.serverError := by
  rcases checkIn_cases env req s with ⟨h1, _, _⟩ | ⟨i, clinic, doc', hc, hlt, h1, h2, h3, h4, _, _, _, _, _, h9⟩
  · rw [h1] at h
    have := congrArg List.length h
    simp at this
  · rw [h1] at h
    have hd : doc' = doc := by simpa using h
    subst hd
    exact ⟨i, clinic, hc, hlt, h2, h3, h4, h9⟩

/-- C4 (counterexample): one entry (P1, completed) has been created for
`demoClinic` today, and the next check-in is assigned queuePosition 1, not
1 + 1. -/
theorem checkIn_position_after_completed_is_one :
    countDocuments (createdToday "clinic" 0) afterP1Completed.checkIns = 1
      ∧ (checkIn (demoEnv "P2" 3000) (demoRequest none) afterP1Completed).2
          = Response.created "P2" 1 15 false
      ∧ (checkIn (demoEnv "P2" 3000) (demoRequest none) afterP1Completed).1.checkIns.map
          (fun c => (c.checkInId, c.queuePosition)) = [("P1", 1), ("P2", 1)] := by
  decide

/-- C4 (amended): the queuePosition stored with (and returned for) a new
check-in equals the number of the clinic's entries created that day whose
status is currently waiting or called, plus 1. -/
theorem checkIn_position_counts_current_queue (env : Env) (req : CheckInRequest) (s : State)
    (doc : CheckIn) (h : (checkIn env req s).1.checkIns = s.checkIns ++ [doc]) :
    doc.queuePosition = countDocuments (inCurrentQueue req.clinicId env.today) s.checkIns + 1
      ∧ ∀ id pos est v, (checkIn env req s).2 = Response.created id pos est v →
          pos = countDocuments (inCurrentQueue req.clinicId env.today) s.checkIns + 1 := by
  obtain ⟨i, clinic, _, _, _, hpos, _, hresp⟩ := checkIn_appended env req s doc h
  refine ⟨hpos, ?_⟩
  intro id pos est v hr
  rw [hresp] at hr
  split at hr
  · simp only [Response.created.injEq] at hr
    rw [← hr.2.1, hpos]
  · exact absurd hr (by simp)

/-- C4 (amended), at the check-in of P2 after P1 was completed. -/
theorem checkIn_position_counts_current_queue_witness :
    (checkIn (demoEnv "P2" 3000) (demoRequest none) afterP1Completed).1.checkIns
          = afterP1Completed.checkIns ++ [p2First]
      ∧ p2First.queuePosition
          = countDocuments (inCurrentQueue "clinic" 0) afterP1Completed.checkIns + 1 :=
  ⟨by decide,
    (checkIn_position_counts_current_queue (demoEnv "P2" 3000) (demoRequest none)
      afterP1Completed p2First (by decide)).1⟩

/-- C6: the estimatedWaitTime stored with a new check-in, and the one returned
in the answer, is the entry's queuePosition times the avgWaitTime of the
clinic the handler looked up. -/
theorem checkIn_estimate_is_position_times_avgWaitTime (env : Env) (req : CheckInRequest)
    (s : State) (doc : CheckIn) (h : (checkIn env req s).1.checkIns = s.checkIns ++ [doc]) :
    ∃ i clinic,
      findOne (fun c => c.clinicId == req.clinicId && c.isActive) s.clinics = some (i, clinic)
        ∧ doc.estimatedWaitTime = (doc.queuePosition : Int) * clinic.avgWaitTime
        ∧ ∀ id pos est v, (checkIn env req s).2 = Response.created id pos est v →
            pos = doc.queuePosition ∧ est = (pos : Int) * clinic.avgWaitTime := by
  obtain ⟨i, clinic, hc, _, _, _, hest, hresp⟩ := checkIn_appended env req s doc h
  refine ⟨i, clinic, hc, hest, ?_⟩
  intro id pos est v hr
  rw [hresp] at hr
  split at hr
  · simp only [Response.created.injEq] at hr
    obtain ⟨_, hpos, he, _⟩ := hr
    subst hpos
    exact ⟨rfl, by rw [← he, hest]⟩
  · exact absurd hr (by simp)

/-- C6, at the first check-in of Scenario A: position 1, estimate 1 * 15. -/
theorem checkIn_estimate_is_position_times_avgWaitTime_witness :
    (checkIn (demoEnv "P1" 1000) (demoRequest none) demoState).1.checkIns
        = demoState.checkIns ++ [p1First]
      ∧ ∃ i clinic,
          findOne (fun c => c.clinicId == "clinic" && c.isActive) demoState.clinics
              = some (i, clinic)
            ∧ ∀ id pos est v,
                (checkIn (demoEnv "P1" 1000) (demoRequest none) demoState).2
                    = Response.created id pos est v →
                  est = (pos : Int) * clinic.avgWaitTime := by
  refine ⟨by decide, ?_⟩
  obtain ⟨i, clinic, h1, _, h3⟩ :=
    checkIn_estimate_is_position_times_avgWaitTime (demoEnv "P1" 1000) (demoRequest none)
      demoState p1First (by decide)
  exact ⟨i, clinic, h1, fun id pos est v hr => (h3 id pos est v hr).2⟩

/-- C8: when the active clinic the handler finds has currentQueueSize at or
above maxQueueSize, the check-in is answered "queue is full" and the database
(entries, clinic counters, patients) is left as it was; when the counter is
below maxQueueSize the answer is never "queue is full". -/
theorem checkIn_queueFull_iff_counter_at_capacity (env : Env) (req : CheckInRequest) (s : State)
    (i : Nat) (clinic : Clinic)
    (hclinic : findOne (fun c => c.clinicId == req.clinicId && c.isActive) s.clinics
      = some (i, clinic)) :
    (clinic.maxQueueSize ≤ clinic.currentQueueSize →
        checkIn env req s = (s, Response.queueFull))
      ∧ (clinic.currentQueueSize < clinic.maxQueueSize →
          (checkIn env req s).2 ≠ Response.queueFull) := by
  constructor
  · intro hfull
    simp only [checkIn, hclinic]
    simp [hfull]
  · intro hlt
    have hn : ¬ clinic.currentQueueSize ≥ clinic.maxQueueSize := not_le.mpr hlt
    simp only [checkIn, hclinic, hn, if_false]
    split
    · simp
    · split
      · simp
      · split
        · split <;> [simp; (split <;> simp)]
        · simp

/-- C8, at Scenario C: maxQueueSize 1 and one waiting entry. -/
theorem checkIn_queueFull_iff_counter_at_capacity_witness :
    findOne (fun c => c.clinicId == "clinic" && c.isActive) scenarioC.clinics
        = some (0, { demoClinic with maxQueueSize := 1, currentQueueSize := 1, totalCheckIns := 1 })
      ∧ checkIn (demoEnv "P2" 2000) (demoRequest none) scenarioC
        = (scenarioC, Response.queueFull) :=
  ⟨by decide,
    (checkIn_queueFull_iff_counter_at_capacity (demoEnv "P2" 2000) (demoRequest none) scenarioC 0
      { demoClinic with maxQueueSize := 1, currentQueueSize := 1, totalCheckIns := 1 }
      (by decide)).1 (by decide)⟩

/-! ## C10: cancel -/

/-- Cancel never writes to the clinic collection: the status it tests is the
one it has just set. -/
theorem cancel_clinics (env : Env) (checkInId : String) (s : State) :
    (cancel env checkInId s).1.clinics = s.clinics := by
  unfold cancel
  split
  · rfl
  · split <;> simp

/-- C10 (code at the failing input): P1 is waiting and the counter of
`demoClinic` is 1; cancel answers with success and sets P1 to cancelled, and
the counter is still 1. -/
theorem cancel_waiting_leaves_counter :
    afterP1.checkIns.map (fun c => (c.checkInId, c.status)) = [("P1", Status.waiting)]
      ∧ afterP1.clinics.map (fun c => c.currentQueueSize) = [1]
      ∧ (cancel (demoEnv "P1" 2000) "P1" afterP1).2 = Response.cancelledOk
      ∧ (cancel (demoEnv "P1" 2000) "P1" afterP1).1.checkIns.map
          (fun c => (c.checkInId, c.status)) = [("P1", Status.cancelled)]
      ∧ (cancel (demoEnv "P1" 2000) "P1" afterP1).1.clinics.map (fun c => c.currentQueueSize)
          = [1] := by
  decide

/-! ## Collections: counting and in-place writes -/

theorem countDocuments_append {α : Type} (p : α → Bool) (l : List α) (a : α) :
    countDocuments p (l ++ [a]) = countDocuments p l + (if p a = true then 1 else 0) := by
  unfold countDocuments
  rw [List.filter_append, List.length_append]
  by_cases h : p a = true <;> simp [List.filter, h]

theorem countDocuments_set {α : Type} (p : α → Bool) (l : List α) (i : Nat) (a b : α)
    (h : l[i]? = some a) :
    countDocuments p (l.set i b) + (if p a = true then 1 else 0)
      = countDocuments p l + (if p b = true then 1 else 0) := by
  induction l generalizing i with
  | nil => simp at h
  | cons x xs ih =>
    cases i with
    | zero =>
      simp only [List.getElem?_cons_zero, Option.some.injEq] at h
      subst h
      simp only [List.set_cons_zero, countDocuments, List.filter_cons]
      by_cases hx : p x = true <;> by_cases hb : p b = true <;> simp [hx, hb]
    | succ j =>
      simp only [List.getElem?_cons_succ] at h
      have := ih j h
      simp only [List.set_cons_succ, countDocuments, List.filter_cons] at this ⊢
      by_cases hx : p x = true <;> simp [hx] <;> omega

theorem countDocuments_congr {α : Type} (p q : α → Bool) (l : List α)
    (h : ∀ a ∈ l, p a = q a) : countDocuments p l = countDocuments q l := by
  unfold countDocuments
  rw [List.filter_congr h]

theorem filter_map_set {α β : Type} (p : α → Bool) (g : α → β) (l : List α) (i : Nat) (a b : α)
    (h : l[i]? = some a) (hp : p b = p a) (hg : g b = g a) :
    ((l.set i b).filter p).map g = (l.filter p).map g := by
  induction l generalizing i with
  | nil => simp at h
  | cons x xs ih =>
    cases i with
    | zero =>
      simp only [List.getElem?_cons_zero, Option.some.injEq] at h
      subst h
      simp only [List.set_cons_zero, List.filter_cons, hp]
      by_cases hx : p x = true <;> simp [hx, hg]
    | succ j =>
      simp only [List.getElem?_cons_succ] at h
      simp only [List.set_cons_succ, List.filter_cons]
      by_cases hx : p x = true <;> simp [hx, ih j h]

theorem mem_set {α : Type} (l : List α) (i : Nat) (b x : α) (h : x ∈ l.set i b) :
    x = b ∨ x ∈ l := by
  rcases List.mem_or_eq_of_mem_set h with h | h
  · exact Or.inr h
  · exact Or.inl h

/-! ## The clinic counter -/

theorem updateClinic_cons (clinicId : String) (f : Clinic → Clinic) (x : Clinic)
    (xs : List Clinic) :
    updateClinic clinicId f (x :: xs)
      = if x.clinicId = clinicId then f x :: xs else x :: updateClinic clinicId f xs := by
  unfold updateClinic
  simp only [findOne]
  by_cases hx : x.clinicId = clinicId
  · simp [hx]
  · simp only [hx, beq_iff_eq, if_false]
    cases hf : findOne (fun c => c.clinicId == clinicId) xs with
    | none => simp
    | some r => simp

theorem updateClinic_map_clinicId (clinicId : String) (f : Clinic → Clinic)
    (hf : ∀ c, (f c).clinicId = c.clinicId) (l : List Clinic) :
    (updateClinic clinicId f l).map (fun c => c.clinicId) = l.map (fun c => c.clinicId) := by
  induction l with
  | nil => rfl
  | cons x xs ih =>
    rw [updateClinic_cons]
    split
    · simp [hf]
    · simp [ih]

theorem mem_updateClinic (clinicId : String) (f : Clinic → Clinic) (l : List Clinic)
    (hnodup : (l.map (fun c => c.clinicId)).Nodup) (c' : Clinic)
    (h : c' ∈ updateClinic clinicId f l) :
    (c' ∈ l ∧ c'.clinicId ≠ clinicId) ∨ ∃ c ∈ l, c.clinicId = clinicId ∧ c' = f c := by
  induction l with
  | nil => simp [updateClinic, findOne] at h
  | cons x xs ih =>
    rw [updateClinic_cons] at h
    simp only [List.map_cons, List.nodup_cons, List.mem_map, not_exists, not_and] at hnodup
    split at h
    · rename_i hx
      rcases List.mem_cons.1 h with rfl | h
      · exact Or.inr ⟨x, List.mem_cons_self _ _, hx, rfl⟩
      · refine Or.inl ⟨List.mem_cons_of_mem _ h, ?_⟩
        intro hc
        exact hnodup.1 c' h (by rw [hc, hx])
    · rename_i hx
      rcases List.mem_cons.1 h with rfl | h
      · exact Or.inl ⟨List.mem_cons_self _ _, hx⟩
      · rcases ih hnodup.2 h with ⟨h1, h2⟩ | ⟨c, hc, h1, h2⟩
        · exact Or.inl ⟨List.mem_cons_of_mem _ h1, h2⟩
        · exact Or.inr ⟨c, List.mem_cons_of_mem _ hc, h1, h2⟩

theorem findOne_updateClinic (p : Clinic → Bool) (clinicId : String) (f : Clinic → Clinic)
    (hf : ∀ c, p (f c) = p c) (l : List Clinic) (i : Nat) (c : Clinic)
    (h : findOne p l = some (i, c)) :
    ∃ c', findOne p (updateClinic clinicId f l) = some (i, c') ∧ (c' = c ∨ c' = f c) := by
  induction l generalizing i with
  | nil => simp [findOne] at h
  | cons x xs ih =>
    rw [updateClinic_cons]
    unfold findOne at h
    by_cases hx : x.clinicId = clinicId
    · simp only [hx, if_true]
      by_cases hpx : p x = true
      · simp only [hpx, if_true, Option.some.injEq, Prod.mk.injEq] at h
        obtain ⟨rfl, rfl⟩ := h
        exact ⟨f x, by simp [findOne, hf, hpx], Or.inr rfl⟩
      · simp only [hpx] at h
        refine ⟨c, ?_, Or.inl rfl⟩
        simp only [findOne, hf, hpx]
        exact h
    · simp only [hx, if_false]
      by_cases hpx : p x = true
      · simp only [hpx, if_true, Option.some.injEq, Prod.mk.injEq] at h
        obtain ⟨rfl, rfl⟩ := h
        exact ⟨x, by simp [findOne, hpx], Or.inl rfl⟩
      · simp only [hpx, Bool.false_eq_true, if_false] at h
        cases hr : findOne p xs with
        | none => simp [hr] at h
        | some r =>
          obtain ⟨j, d⟩ := r
          simp only [hr, Option.some.injEq, Prod.mk.injEq] at h
          obtain ⟨rfl, rfl⟩ := h
          obtain ⟨c', h1, h2⟩ := ih j hr
          exact ⟨c', by simp [findOne, hpx, h1], h2⟩

/-! ## The database after each operation -/

theorem updateStatus_state (env : Env) (checkInId : String) (target : Status) (s : State) :
    (updateStatus env checkInId target s).1
      = match findOne (fun c => c.checkInId == checkInId) s.checkIns with
        | none => s
        | some (i, found) =>
          { s with
            clinics :=
              if (stampStatus env.now target { found with status := target }).2 then
                updateClinic found.clinicId incOnCompleted s.clinics
              else s.clinics
            checkIns := s.checkIns.set i
              (preSave env.now (stampStatus env.now target { found with status := target }).1) } := by
  cases hf : findOne (fun c => c.checkInId == checkInId) s.checkIns with
  | none => simp only [updateStatus, hf]
  | some r => obtain ⟨i, found⟩ := r; simp only [updateStatus, hf]; split <;> rfl

theorem callNext_state (env : Env) (clinicId : String) (s : State) :
    (callNext env clinicId s).1
      = match nextCheckIn clinicId s.checkIns with
        | none => s
        | some (i, next) =>
          { s with
            checkIns := s.checkIns.set i
              (preSave env.now { next with status := .called, calledTime := some env.now }) } := by
  cases hf : nextCheckIn clinicId s.checkIns with
  | none => simp only [callNext, hf]
  | some r => obtain ⟨i, next⟩ := r; simp only [callNext, hf]; split <;> rfl

theorem cancel_state (env : Env) (checkInId : String) (s : State) :
    (cancel env checkInId s).1
      = match findOne (fun c => c.checkInId == checkInId) s.checkIns with
        | none => s
        | some (i, found) =>
          { s with checkIns := s.checkIns.set i { found with status := .cancelled } } := by
  cases hf : findOne (fun c => c.checkInId == checkInId) s.checkIns with
  | none => simp only [cancel, hf]
  | some r => obtain ⟨i, found⟩ := r; simp only [cancel, hf]; split <;> simp

theorem nextCheckIn_some (clinicId : String) (l : List CheckIn) (i : Nat) (next : CheckIn)
    (h : nextCheckIn clinicId l = some (i, next)) :
    l[i]? = some next ∧ next.clinicId = clinicId ∧ next.status = Status.waiting := by
  obtain ⟨hget, hp, _⟩ := findOneSorted_some _ _ sortsBefore_asymm sortsBefore_irrefl
    sortsBefore_negtrans _ _ _ h
  simp only [isWaitingIn, Bool.and_eq_true, beq_iff_eq] at hp
  exact ⟨hget, hp.1, hp.2⟩

theorem stampStatus_completed (now : Nat) (target : Status) (c : CheckIn)
    (h : (stampStatus now target c).2 = true) :
    target = Status.completed ∧ c.serviceEndTime = none := by
  unfold stampStatus at h
  split_ifs at h with h1 h2 h3
  exact h3

theorem stampStatus_serviceEndTime (now : Nat) (target : Status) (c : CheckIn)
    (h : target ≠ Status.completed) :
    (stampStatus now target c).1.serviceEndTime = c.serviceEndTime := by
  unfold stampStatus
  split_ifs with h1 h2 h3
  · rfl
  · rfl
  · exact absurd h3.1 h
  · rfl

theorem stampStatus_of_completed (now : Nat) (c : CheckIn) (h : c.serviceEndTime = none) :
    (stampStatus now Status.completed c).2 = true := by
  unfold stampStatus
  simp [h]

/-! ## C9: the counter and the active entries -/

theorem activeQueueSize_set_same (clinicId : String) (l : List CheckIn) (i : Nat)
    (a b : CheckIn) (h : l[i]? = some a) (hc : b.clinicId = a.clinicId)
    (hact : activeEntry b = activeEntry a) :
    activeQueueSize clinicId (l.set i b) = activeQueueSize clinicId l := by
  have := countDocuments_set (fun c => c.clinicId == clinicId && activeEntry c) l i a b h
  simp only [hc, hact] at this
  unfold activeQueueSize
  omega

theorem countersMatch_set_same (s : State) (i : Nat) (a b : CheckIn)
    (hinv : CountersMatch s) (h : s.checkIns[i]? = some a) (hc : b.clinicId = a.clinicId)
    (hact : activeEntry b = activeEntry a) (hend : b.serviceEndTime = a.serviceEndTime) :
    CountersMatch { s with checkIns := s.checkIns.set i b } := by
  obtain ⟨hnd, hcount, hsvc⟩ := hinv
  refine ⟨hnd, ?_, ?_⟩
  · intro c hcm
    simp only [activeQueueSize_set_same _ _ _ _ _ h hc hact]
    exact hcount c hcm
  · intro e he hae
    rcases mem_set _ _ _ _ he with rfl | he
    · rw [hend]; exact hsvc a (List.getElem?_mem h) (by rw [← hact]; exact hae)
    · exact hsvc e he hae

theorem countersMatch_checkIn (env : Env) (req : CheckInRequest) (s : State)
    (hinv : CountersMatch s) : CountersMatch (checkIn env req s).1 := by
  obtain ⟨hnd, hcount, hsvc⟩ := hinv
  rcases checkIn_cases env req s with ⟨h1, h2, _⟩ |
    ⟨i, clinic, doc, _, _, h1, h2, _, _, _, hdc, hds, _, hde, _⟩
  · unfold CountersMatch; rw [h1, h2]; exact ⟨hnd, hcount, hsvc⟩
  · unfold CountersMatch; rw [h1, h2]
    refine ⟨?_, ?_, ?_⟩
    · rw [updateClinic_map_clinicId req.clinicId incOnCheckIn (fun _ => rfl)]; exact hnd
    · intro c' hc'
      unfold activeQueueSize
      rw [countDocuments_append]
      rcases mem_updateClinic _ _ _ hnd c' hc' with ⟨hm, hne⟩ | ⟨c, hm, hid, rfl⟩
      · have := hcount c' hm
        unfold activeQueueSize at this
        have hne' : ¬ req.clinicId = c'.clinicId := fun h => hne h.symm
        simp [hdc, hne', this]
      · have := hcount c hm
        unfold activeQueueSize at this
        simp [incOnCheckIn, hdc, hid, activeEntry, hds, this]
    · intro e he hae
      rcases List.mem_append.1 he with he | he
      · exact hsvc e he hae
      · simp only [List.mem_singleton] at he; rw [he]; exact hde

theorem countersMatch_callNext (env : Env) (clinicId : String) (s : State)
    (hinv : CountersMatch s) : CountersMatch (callNext env clinicId s).1 := by
  rw [callNext_state]
  cases hf : nextCheckIn clinicId s.checkIns with
  | none => exact hinv
  | some r =>
    obtain ⟨i, next⟩ := r
    obtain ⟨hget, _, hw⟩ := nextCheckIn_some _ _ _ _ hf
    exact countersMatch_set_same s i next _ hinv hget (by simp)
      (by simp [activeEntry, hw]) (by simp)

theorem countersMatch_updateStatus (env : Env) (checkInId : String) (target : Status)
    (s : State) (hinv : CountersMatch s)
    (hok : forwardStep s env (Op.updateStatus checkInId target) = true) :
    CountersMatch (updateStatus env checkInId target s).1 := by
  rw [updateStatus_state]
  unfold forwardStep at hok
  cases hf : findOne (fun c => c.checkInId == checkInId) s.checkIns with
  | none => exact hinv
  | some r =>
    obtain ⟨i, found⟩ := r
    obtain ⟨hget, _⟩ := findOne_some _ _ _ _ hf
    simp only [hf, Bool.and_eq_true, bne_iff_ne, ne_eq] at hok
    obtain ⟨⟨hact, hnc⟩, hns⟩ := hok
    have hend : found.serviceEndTime = none := hinv.2.2 found (List.getElem?_mem hget) hact
    by_cases hcomp : target = Status.completed
    · subst hcomp
      have hst : (stampStatus env.now Status.completed
          { found with status := Status.completed }).2 = true :=
        stampStatus_of_completed _ _ hend
      simp only [hst, if_true]
      obtain ⟨hnd, hcount, hsvc⟩ := hinv
      have hsv : activeEntry (preSave env.now (stampStatus env.now Status.completed
          { found with status := Status.completed }).1) = false := by
        simp [activeEntry]
      have key : ∀ cid : String,
          countDocuments (fun c => c.clinicId == cid && activeEntry c)
              (s.checkIns.set i (preSave env.now (stampStatus env.now Status.completed
                { found with status := Status.completed }).1))
            + (if found.clinicId = cid then 1 else 0)
            = countDocuments (fun c => c.clinicId == cid && activeEntry c) s.checkIns := by
        intro cid
        have := countDocuments_set (fun c => c.clinicId == cid && activeEntry c)
          s.checkIns i found (preSave env.now (stampStatus env.now Status.completed
            { found with status := Status.completed }).1) hget
        simp only [hsv, hact, Bool.and_false, Bool.and_true, Bool.false_eq_true, if_false,
          Nat.add_zero, beq_iff_eq] at this
        exact this
      refine ⟨?_, ?_, ?_⟩
      · simp only []
        rw [updateClinic_map_clinicId found.clinicId incOnCompleted (fun _ => rfl)]; exact hnd
      · intro c' hc'
        simp only [] at hc' ⊢
        unfold activeQueueSize
        rcases mem_updateClinic _ _ _ hnd c' hc' with ⟨hm, hne⟩ | ⟨c, hm, hid, rfl⟩
        · have h1 := hcount c' hm
          have h2 := key c'.clinicId
          have hne' : ¬ found.clinicId = c'.clinicId := fun h => hne h.symm
          simp only [hne', if_false, Nat.add_zero] at h2
          unfold activeQueueSize at h1
          rw [h2]; exact h1
        · have h1 := hcount c hm
          have h2 := key found.clinicId
          simp only [if_true] at h2
          unfold activeQueueSize at h1
          simp only [incOnCompleted, hid] at h1 ⊢
          omega
      · intro e he hae
        simp only [] at he
        rcases mem_set _ _ _ _ he with rfl | he
        · simp [activeEntry] at hae
        · exact hsvc e he hae
    · have hst : (stampStatus env.now target { found with status := target }).2 = false := by
        rw [Bool.eq_false_iff]
        intro h
        exact hcomp (stampStatus_completed _ _ _ h).1
      simp only [hst, Bool.false_eq_true, if_false]
      refine countersMatch_set_same s i found _ hinv hget (by simp) ?_ ?_
      · rw [hact]
        cases target <;> simp_all [activeEntry]
      · simp [stampStatus_serviceEndTime _ _ _ hcomp]

theorem countersMatch_run (steps : List (Env × Op)) (s : State) (hinv : CountersMatch s)
    (hsteps : allSteps forwardStep steps s = true) : CountersMatch (run steps s) := by
  induction steps generalizing s with
  | nil => exact hinv
  | cons x rest ih =>
    obtain ⟨env, op⟩ := x
    simp only [allSteps, Bool.and_eq_true] at hsteps
    simp only [run]
    refine ih _ ?_ hsteps.2
    cases op with
    | checkIn req => exact countersMatch_checkIn env req s hinv
    | updateStatus checkInId target =>
      exact countersMatch_updateStatus env checkInId target s hinv hsteps.1
    | callNext clinicId => exact countersMatch_callNext env clinicId s hinv
    | cancel checkInId => simp [forwardStep] at hsteps

/-- C9 (counterexample): from the empty `demoClinic`, P1 checks in, is called
and is marked no-show; the counter is 1 and no entry is active. -/
theorem counter_exceeds_active_after_noShow :
    emptyClinics demoState = true
      ∧ (run [(demoEnv "P1" 1000, Op.checkIn (demoRequest none)),
              (demoEnv "staff" 2000, Op.callNext "clinic"),
              (demoEnv "staff" 3000, Op.updateStatus "P1" Status.noShow)] demoState).clinics.map
          (fun c => c.currentQueueSize) = [1]
      ∧ activeQueueSize "clinic"
          (run [(demoEnv "P1" 1000, Op.checkIn (demoRequest none)),
                (demoEnv "staff" 2000, Op.callNext "clinic"),
                (demoEnv "staff" 3000, Op.updateStatus "P1" Status.noShow)] demoState).checkIns
          = 0 := by
  decide

/-- C9 (amended): in every state reached from an empty system with unique
clinic ids by check-ins, call-next operations and status updates that take an
entry currently waiting, called or in-service to waiting, called, in-service
or completed, each clinic's currentQueueSize equals the number of its entries
whose status is waiting, called or in-service. -/
theorem counter_matches_active_on_forward_runs (s0 : State) (steps : List (Env × Op))
    (hempty : emptyClinics s0 = true)
    (hunique : (s0.clinics.map (fun c => c.clinicId)).Nodup)
    (hsteps : allSteps forwardStep steps s0 = true) :
    ∀ c ∈ (run steps s0).clinics,
      c.currentQueueSize = (activeQueueSize c.clinicId (run steps s0).checkIns : Int) := by
  have hinit : CountersMatch s0 := by
    simp only [emptyClinics, Bool.and_eq_true, List.isEmpty_iff, List.all_eq_true,
      beq_iff_eq] at hempty
    refine ⟨hunique, ?_, ?_⟩
    · intro c hc
      rw [hempty.1]
      simpa [activeQueueSize, countDocuments] using hempty.2 c hc
    · intro e he
      rw [hempty.1] at he
      exact absurd he (List.not_mem_nil _)
  exact (countersMatch_run steps s0 hinit hsteps).2.1

/-- C9 (amended), on a run through `demoClinic`: P1 and P2 check in, P1 is
called, served and completed. -/
theorem counter_matches_active_on_forward_runs_witness :
    emptyClinics demoState = true
      ∧ (demoState.clinics.map (fun c => c.clinicId)).Nodup
      ∧ allSteps forwardStep forwardRun demoState = true
      ∧ ∀ c ∈ (run forwardRun demoState).clinics,
          c.currentQueueSize = (activeQueueSize c.clinicId (run forwardRun demoState).checkIns : Int) :=
  ⟨by decide, by decide, by decide,
    counter_matches_active_on_forward_runs demoState forwardRun (by decide) (by decide)
      (by decide)⟩

/-! ## C5: positions along a run -/

theorem positionsInOrder_set (clinicId : String) (today : Nat) (s : State) (i : Nat)
    (a b : CheckIn) (hinv : PositionsInOrder clinicId today s) (h : s.checkIns[i]? = some a)
    (hc : b.clinicId = a.clinicId) (hcr : b.createdAt = a.createdAt)
    (hq : b.queuePosition = a.queuePosition)
    (hst : createdToday clinicId today a = true →
      b.status = Status.waiting ∨ b.status = Status.called)
    (clinics : List Clinic) :
    PositionsInOrder clinicId today { s with clinics := clinics, checkIns := s.checkIns.set i b } := by
  have hct : createdToday clinicId today b = createdToday clinicId today a := by
    simp [createdToday, hc, hcr]
  have hpos : positionsOf clinicId today (s.checkIns.set i b)
      = positionsOf clinicId today s.checkIns :=
    filter_map_set _ _ _ _ _ _ h hct hq
  refine ⟨?_, ?_⟩
  · intro e he hce
    rcases mem_set _ _ _ _ he with rfl | he
    · exact hst (by rw [← hct]; exact hce)
    · exact hinv.1 e he hce
  · simp only [hpos]; exact hinv.2

theorem positionsInOrder_checkIn (clinicId : String) (today : Nat) (env : Env)
    (req : CheckInRequest) (s : State) (hinv : PositionsInOrder clinicId today s)
    (htoday : env.today = today) (hnow : today ≤ env.now) :
    PositionsInOrder clinicId today (checkIn env req s).1 := by
  rcases checkIn_cases env req s with ⟨h1, _, _⟩ |
    ⟨i, clinic, doc, _, _, h1, _, hpos, _, _, hdc, hds, hdt, _, _⟩
  · unfold PositionsInOrder; rw [h1]; exact hinv
  · unfold PositionsInOrder; rw [h1]
    obtain ⟨hq, hp⟩ := hinv
    refine ⟨?_, ?_⟩
    · intro e he hce
      rcases List.mem_append.1 he with he | he
      · exact hq e he hce
      · simp only [List.mem_singleton] at he; rw [he]; exact Or.inl hds
    · by_cases hcid : req.clinicId = clinicId
      · have hcd : createdToday clinicId today doc = true := by
          simp [createdToday, hdc, hcid, hdt, hnow]
        have hcount : countDocuments (inCurrentQueue req.clinicId env.today) s.checkIns
            = (positionsOf clinicId today s.checkIns).length := by
          rw [hcid, htoday]
          simp only [positionsOf, List.length_map]
          apply countDocuments_congr
          intro e he
          by_cases hce : createdToday clinicId today e = true
          · rcases hq e he hce with hs | hs <;>
              simp [inCurrentQueue, createdToday, hs] at hce ⊢
          · simp only [Bool.not_eq_true] at hce
            simp only [hce]
            simp only [createdToday, Bool.and_eq_false_iff] at hce
            simp only [inCurrentQueue, Bool.and_eq_false_iff]
            rcases hce with hce | hce
            · exact Or.inl (Or.inl hce)
            · exact Or.inr hce
        have happ : positionsOf clinicId today (s.checkIns ++ [doc])
            = positionsOf clinicId today s.checkIns ++ [doc.queuePosition] := by
          simp [positionsOf, List.filter_append, List.filter, hcd]
        rw [happ, hpos, hcount, List.length_append, List.length_singleton, List.range'_concat,
          ← hp]
        simp [Nat.add_comm]
      · have hcd : createdToday clinicId today doc = false := by
          simp [createdToday, hdc, hcid]
        have happ : positionsOf clinicId today (s.checkIns ++ [doc])
            = positionsOf clinicId today s.checkIns := by
          simp [positionsOf, List.filter_append, List.filter, hcd]
        rw [happ]; exact hp

theorem positionsInOrder_step (clinicId : String) (today : Nat) (env : Env) (op : Op)
    (s : State) (hinv : PositionsInOrder clinicId today s)
    (hok : queuedStep clinicId today s env op = true) :
    PositionsInOrder clinicId today (step env op s).1 := by
  simp only [queuedStep, Bool.and_eq_true, beq_iff_eq, decide_eq_true_eq] at hok
  obtain ⟨⟨htoday, hnow⟩, hop⟩ := hok
  cases op with
  | checkIn req => exact positionsInOrder_checkIn clinicId today env req s hinv htoday hnow
  | callNext cid =>
    simp only [step]
    rw [callNext_state]
    cases hf : nextCheckIn cid s.checkIns with
    | none => exact hinv
    | some r =>
      obtain ⟨i, next⟩ := r
      obtain ⟨hget, _, _⟩ := nextCheckIn_some _ _ _ _ hf
      exact positionsInOrder_set clinicId today s i next _ hinv hget (by simp) (by simp)
        (by simp) (fun _ => Or.inr (by simp)) s.clinics
  | updateStatus checkInId target =>
    simp only [step]
    rw [updateStatus_state]
    cases hf : findOne (fun c => c.checkInId == checkInId) s.checkIns with
    | none => exact hinv
    | some r =>
      obtain ⟨i, found⟩ := r
      obtain ⟨hget, _⟩ := findOne_some _ _ _ _ hf
      simp only [hf, Bool.or_eq_true, Bool.not_eq_true', beq_iff_eq] at hop
      refine positionsInOrder_set clinicId today s i found _ hinv hget (by simp) (by simp)
        (by simp) ?_ _
      intro hct
      simp only [preSave_status, stampStatus_status]
      rcases hop with (hop | hop) | hop
      · rw [hct] at hop; exact absurd hop (by simp)
      · exact Or.inl hop
      · exact Or.inr hop
  | cancel checkInId =>
    simp only [step]
    rw [cancel_state]
    cases hf : findOne (fun c => c.checkInId == checkInId) s.checkIns with
    | none => exact hinv
    | some r =>
      obtain ⟨i, found⟩ := r
      obtain ⟨hget, _⟩ := findOne_some _ _ _ _ hf
      simp only [hf, Bool.not_eq_true'] at hop
      refine positionsInOrder_set clinicId today s i found { found with status := .cancelled }
        hinv hget rfl rfl rfl ?_ s.clinics
      intro hct
      rw [hct] at hop; exact absurd hop (by simp)

theorem positionsInOrder_run (clinicId : String) (today : Nat) (steps : List (Env × Op))
    (s : State) (hinv : PositionsInOrder clinicId today s)
    (hsteps : allSteps (queuedStep clinicId today) steps s = true) :
    PositionsInOrder clinicId today (run steps s) := by
  induction steps generalizing s with
  | nil => exact hinv
  | cons x rest ih =>
    obtain ⟨env, op⟩ := x
    simp only [allSteps, Bool.and_eq_true] at hsteps
    exact ih _ (positionsInOrder_step clinicId today env op s hinv hsteps.1) hsteps.2

/-- C5 (counterexample): after P1 and P2 checked in and P1 was called, served
and completed, the check-in of P3 is given queuePosition 2, the position P2
holds; the positions of the clinic-day are 1, 2, 2. -/
theorem checkIn_repeats_position_after_completion :
    positionsOf "clinic" 0 (run servedThenCheckIn demoState).checkIns = [1, 2, 2]
      ∧ (run servedThenCheckIn demoState).checkIns.map (fun c => (c.checkInId, c.queuePosition))
          = [("P1", 1), ("P2", 2), ("P3", 2)]
      ∧ ¬ (positionsOf "clinic" 0 (run servedThenCheckIn demoState).checkIns).Pairwise
          (fun a b => a < b) := by
  decide

/-- C5 (amended): on a clinic-day that starts with no entry, along every
sequential run of that day made of check-ins, call-next operations, status
updates to waiting or called, and status updates or cancels of entries of
other clinic-days, the queuePositions of the clinic-day's entries are
1, 2, ..., n in creation order: each new check-in receives a queuePosition
strictly greater than that of every entry created earlier for the clinic-day,
and no two entries share one. -/
theorem positions_increase_while_queued (clinicId : String) (today : Nat) (s0 : State)
    (steps : List (Env × Op))
    (hfresh : ∀ e ∈ s0.checkIns, createdToday clinicId today e = false)
    (hsteps : allSteps (queuedStep clinicId today) steps s0 = true) :
    (positionsOf clinicId today (run steps s0).checkIns).Pairwise (fun a b => a < b)
      ∧ (positionsOf clinicId today (run steps s0).checkIns).Nodup
      ∧ positionsOf clinicId today (run steps s0).checkIns
          = List.range' 1 (positionsOf clinicId today (run steps s0).checkIns).length := by
  have hinit : PositionsInOrder clinicId today s0 := by
    have hnil : positionsOf clinicId today s0.checkIns = [] := by
      simp only [positionsOf, List.map_eq_nil_iff, List.filter_eq_nil_iff]
      intro e he; simp [hfresh e he]
    refine ⟨?_, ?_⟩
    · intro e he hce
      rw [hfresh e he] at hce; exact absurd hce (by simp)
    · rw [hnil]; rfl
  have hfin := (positionsInOrder_run clinicId today steps s0 hinit hsteps).2
  have hpw : (positionsOf clinicId today (run steps s0).checkIns).Pairwise (fun a b => a < b) := by
    rw [hfin]; exact List.pairwise_lt_range' 1 _
  exact ⟨hpw, hpw.imp (fun h => Nat.ne_of_lt h), hfin⟩

/-- C5 (amended), on `queuedRun`: the positions are 1, 2, 3. -/
theorem positions_increase_while_queued_witness :
    (∀ e ∈ demoState.checkIns, createdToday "clinic" 0 e = false)
      ∧ allSteps (queuedStep "clinic" 0) queuedRun demoState = true
      ∧ (positionsOf "clinic" 0 (run queuedRun demoState).checkIns).Pairwise (fun a b => a < b) :=
  ⟨by decide, by decide,
    (positions_increase_while_queued "clinic" 0 demoState queuedRun (by decide) (by decide)).1⟩

/-! ## C7: successive check-ins into an empty queue -/

theorem checkIn_accepted (env : Env) (req : CheckInRequest) (s : State) (i : Nat)
    (clinic : Clinic)
    (hclinic : findOne (fun c => c.clinicId == req.clinicId && c.isActive) s.clinics
      = some (i, clinic))
    (hlt : clinic.currentQueueSize < clinic.maxQueueSize)
    (hacc : requestAccepted env req s = true) :
    ∃ doc, (checkIn env req s).1.checkIns = s.checkIns ++ [doc] := by
  have hn : ¬ clinic.currentQueueSize ≥ clinic.maxQueueSize := not_le.mpr hlt
  unfold requestAccepted at hacc
  cases hinfo : req.patientInfo with
  | none => simp [hinfo] at hacc
  | some info =>
    simp only [hinfo, Bool.and_eq_true, Bool.not_eq_true'] at hacc
    obtain ⟨⟨⟨⟨hpat, hvis⟩, hprio⟩, hid⟩, hloc⟩ := hacc
    cases hp : resolvePatient env info s.patients with
    | none => simp [hp] at hpat
    | some pp =>
      obtain ⟨patients, patient⟩ := pp
      cases hv : req.visitReason with
      | none => simp [hv] at hvis
      | some visitReason =>
        cases hpr : Priority.ofString? (orNormal req.priority) with
        | none => simp [hpr] at hprio
        | some priority =>
          simp only [hv, bne_iff_ne, ne_eq] at hvis
          have hgood : ¬ (visitReason = "" ∨
              (s.checkIns.any fun c => c.checkInId == env.newCheckInId) = true
                ∨ locationCasts req.locationData = false) := by
            rw [hid, hloc]; simp [hvis]
          simp only [checkIn, hclinic, hn, if_false, hinfo, hp, hv, hpr, hgood]
          split <;> exact ⟨_, rfl⟩

theorem checkInAll_positions (clinicId : String) (today : Nat)
    (steps : List (Env × CheckInRequest)) (s : State) (i : Nat) (clinic : Clinic) (n : Nat)
    (hclinic : findOne (fun c => c.clinicId == clinicId && c.isActive) s.clinics = some (i, clinic))
    (hcap : clinic.currentQueueSize + (steps.length : Int) ≤ clinic.maxQueueSize)
    (hn : countDocuments (inCurrentQueue clinicId today) s.checkIns = n)
    (hreq : successiveRequests clinicId today steps s = true) :
    (checkInAll steps s).2.map Response.positionAndEstimate?
        = (List.range' (n + 1) steps.length).map
            (fun (j : Nat) => some (j, (j : Int) * clinic.avgWaitTime))
      ∧ (checkInAll steps s).1.checkIns.map (fun c => (c.queuePosition, c.estimatedWaitTime))
        = s.checkIns.map (fun c => (c.queuePosition, c.estimatedWaitTime))
          ++ (List.range' (n + 1) steps.length).map
              (fun (j : Nat) => (j, (j : Int) * clinic.avgWaitTime)) := by
  induction steps generalizing s i clinic n with
  | nil => simp [checkInAll]
  | cons x rest ih =>
    obtain ⟨env, req⟩ := x
    simp only [successiveRequests, Bool.and_eq_true, beq_iff_eq, decide_eq_true_eq] at hreq
    obtain ⟨⟨⟨⟨⟨hcid, htoday⟩, hnow⟩, hio⟩, hacc⟩, hrest⟩ := hreq
    subst hcid
    subst htoday
    simp only [List.length_cons, Nat.cast_add, Nat.cast_one] at hcap
    have hlt : clinic.currentQueueSize < clinic.maxQueueSize := by
      have : (0 : Int) ≤ (rest.length : Int) := Int.natCast_nonneg _
      omega
    obtain ⟨doc0, hdoc0⟩ := checkIn_accepted env req s i clinic hclinic hlt hacc
    rcases checkIn_cases env req s with ⟨h1, _, _⟩ |
      ⟨i', clinic', doc, hc', _, h1, h2, hpos, hest, _, hdc, hds, hdt, _, hresp⟩
    · rw [h1] at hdoc0
      have := congrArg List.length hdoc0
      simp at this
    · rw [hclinic] at hc'
      simp only [Option.some.injEq, Prod.mk.injEq] at hc'
      obtain ⟨rfl, rfl⟩ := hc'
      obtain ⟨c2, hfind2, hc2⟩ := findOne_updateClinic
        (fun c => c.clinicId == req.clinicId && c.isActive) req.clinicId incOnCheckIn
        (fun _ => rfl) s.clinics i clinic hclinic
      rw [← h2] at hfind2
      have havg : c2.avgWaitTime = clinic.avgWaitTime := by
        rcases hc2 with rfl | rfl <;> rfl
      have hmax : c2.maxQueueSize = clinic.maxQueueSize := by
        rcases hc2 with rfl | rfl <;> rfl
      have hcur : c2.currentQueueSize ≤ clinic.currentQueueSize + 1 := by
        rcases hc2 with rfl | rfl
        · omega
        · simp [incOnCheckIn]
      have hcount : countDocuments (inCurrentQueue req.clinicId env.today)
          (checkIn env req s).1.checkIns = n + 1 := by
        rw [h1, countDocuments_append, hn]
        simp [inCurrentQueue, hdc, hds, hdt, hnow]
      obtain ⟨ih1, ih2⟩ := ih (checkIn env req s).1 i c2 (n + 1) hfind2
        (by rw [hmax]; omega) hcount hrest
      rw [hn] at hpos
      constructor
      · simp only [checkInAll, List.map_cons, List.length_cons, List.range'_succ, ih1, havg]
        rw [hresp, hio]
        simp [Response.positionAndEstimate?, hpos, hest]
      · simp only [checkInAll, List.length_cons, List.range'_succ, List.map_cons, ih2, havg, h1]
        simp [hpos, hest]

/-- C7 (counterexample): the clinic has maxQueueSize 1 and P1, who checked in
the day before, is still waiting; on the new day no entry has been created
and the queue of the day is empty, yet the counter is 1 and the first
check-in (k = 1, not above maxQueueSize) is answered "queue is full" and
nothing is stored. -/
theorem checkIn_empty_day_stale_counter_is_full :
    scenarioC.clinics.map (fun c => (c.currentQueueSize, c.maxQueueSize)) = [(1, 1)]
      ∧ countDocuments (createdToday "clinic" 86400000) scenarioC.checkIns = 0
      ∧ countDocuments (inCurrentQueue "clinic" 86400000) scenarioC.checkIns = 0
      ∧ checkIn (nextDayEnv "P2" 86401000) (demoRequest none) scenarioC
        = (scenarioC, Response.queueFull) := by
  decide

/-- C7 (amended): for an active clinic whose current queue of the day has no
entry, and k successive well-formed check-in requests of that day such that
currentQueueSize + k is not above maxQueueSize, served with the event sink
registered, every request is answered "created", the i-th with queuePosition
i and estimatedWaitTime i * avgWaitTime, and the entries are stored with
these values. -/
theorem successive_checkIns_get_consecutive_positions (clinicId : String) (today : Nat)
    (steps : List (Env × CheckInRequest)) (s : State) (i : Nat) (clinic : Clinic)
    (hclinic : findOne (fun c => c.clinicId == clinicId && c.isActive) s.clinics = some (i, clinic))
    (hqueue : countDocuments (inCurrentQueue clinicId today) s.checkIns = 0)
    (hcap : clinic.currentQueueSize + (steps.length : Int) ≤ clinic.maxQueueSize)
    (hreq : successiveRequests clinicId today steps s = true) :
    (checkInAll steps s).2.map Response.positionAndEstimate?
        = (List.range' 1 steps.length).map (fun (j : Nat) => some (j, (j : Int) * clinic.avgWaitTime))
      ∧ (checkInAll steps s).1.checkIns.map (fun c => (c.queuePosition, c.estimatedWaitTime))
        = s.checkIns.map (fun c => (c.queuePosition, c.estimatedWaitTime))
          ++ (List.range' 1 steps.length).map (fun (j : Nat) => (j, (j : Int) * clinic.avgWaitTime)) :=
  checkInAll_positions clinicId today steps s i clinic 0 hclinic hcap hqueue hreq

/-- C7 (amended), at Scenario A (avgWaitTime 15, counter 0, maxQueueSize
50): P1 gets 1 and 15, P2 gets 2 and 30. -/
theorem successive_checkIns_get_consecutive_positions_witness :
    findOne (fun c => c.clinicId == "clinic" && c.isActive) demoState.clinics
        = some (0, demoClinic)
      ∧ countDocuments (inCurrentQueue "clinic" 0) demoState.checkIns = 0
      ∧ demoClinic.currentQueueSize + (scenarioARequests.length : Int) ≤ demoClinic.maxQueueSize
      ∧ successiveRequests "clinic" 0 scenarioARequests demoState = true
      ∧ (checkInAll scenarioARequests demoState).2.map Response.positionAndEstimate?
        = [some (1, 15), some (2, 30)] := by
  refine ⟨by decide, by decide, by decide, by decide, ?_⟩
  have h := (successive_checkIns_get_consecutive_positions "clinic" 0 scenarioARequests
    demoState 0 demoClinic (by decide) (by decide) (by decide) (by decide)).1
  rw [h]
  decide

/-! ## C11: cancel from any status -/

/-- C11 (counterexample): P1 is completed; cancel answers with success and
stores status cancelled. -/
theorem cancel_completed_succeeds :
    afterP1Completed.checkIns.map (fun c => (c.checkInId, c.status))
        = [("P1", Status.completed)]
      ∧ (cancel (demoEnv "P1" 3000) "P1" afterP1Completed).2 = Response.cancelledOk
      ∧ (cancel (demoEnv "P1" 3000) "P1" afterP1Completed).1.checkIns.map
          (fun c => (c.checkInId, c.status)) = [("P1", Status.cancelled)] := by
  decide

/-- C11 (amended): for every stored entry, whatever its status (in-service,
completed, cancelled and no-show included), cancel stores status cancelled on
it, changes no other field and no other entry, and, with the event sink
registered, answers with success; it refuses only an id no entry has. -/
theorem cancel_accepts_every_status (env : Env) (checkInId : String) (s : State)
    (hfound : ∃ c ∈ s.checkIns, c.checkInId = checkInId) :
    ∃ i found,
      findOne (fun c => c.checkInId == checkInId) s.checkIns = some (i, found)
        ∧ (cancel env checkInId s).1.checkIns
            = s.checkIns.set i { found with status := Status.cancelled }
        ∧ (cancel env checkInId s).1.checkIns[i]?
            = some { found with status := Status.cancelled }
        ∧ (env.ioPresent = true → (cancel env checkInId s).2 = Response.cancelledOk) := by
  obtain ⟨i, found, hf⟩ := findOne_of_exists (fun c => c.checkInId == checkInId) s.checkIns
    (by obtain ⟨c, hc, hid⟩ := hfound; exact ⟨c, hc, by simpa using hid⟩)
  obtain ⟨hget, _⟩ := findOne_some _ _ _ _ hf
  refine ⟨i, found, hf, ?_, ?_, ?_⟩
  · rw [cancel_state, hf]
  · rw [cancel_state, hf]; exact set_getElem? _ _ _ _ hget
  · intro hio; simp [cancel, hf, hio]

/-- C11 (amended), at the completed entry P1. -/
theorem cancel_accepts_every_status_witness :
    (∃ c ∈ afterP1Completed.checkIns, c.checkInId = "P1")
      ∧ ∃ (i : Nat) (found : CheckIn),
          (cancel (demoEnv "P1" 3000) "P1" afterP1Completed).1.checkIns[i]?
            = some { found with status := Status.cancelled } := by
  refine ⟨by decide, ?_⟩
  obtain ⟨i, found, _, _, h3, _⟩ :=
    cancel_accepts_every_status (demoEnv "P1" 3000) "P1" afterP1Completed (by decide)
  exact ⟨i, found, h3⟩

/-! ## C12: timestamps under the status update -/

theorem findOne_set {α : Type} (p : α → Bool) (l : List α) (i : Nat) (a b : α)
    (h : findOne p l = some (i, a)) (hb : p b = true) :
    findOne p (l.set i b) = some (i, b) := by
  induction l generalizing i with
  | nil => simp [findOne] at h
  | cons x xs ih =>
    unfold findOne at h
    by_cases hx : p x = true
    · simp only [hx, if_true, Option.some.injEq, Prod.mk.injEq] at h
      obtain ⟨rfl, rfl⟩ := h
      simp [findOne, hb]
    · simp only [hx] at h
      cases hr : findOne p xs with
      | none => simp [hr] at h
      | some r =>
        obtain ⟨j, d⟩ := r
        simp only [hr, Bool.false_eq_true, if_false, Option.some.injEq, Prod.mk.injEq] at h
        obtain ⟨rfl, rfl⟩ := h
        simp [findOne, hx, ih j hr]

theorem preSave_calledTime (now : Nat) (c : CheckIn) :
    (preSave now c).calledTime = c.calledTime := by
  simp only [preSave]; split <;> (try split) <;> rfl

theorem preSave_serviceStartTime (now : Nat) (c : CheckIn) :
    (preSave now c).serviceStartTime = c.serviceStartTime := by
  simp only [preSave]; split <;> (try split) <;> rfl

theorem preSave_checkInTime (now : Nat) (c : CheckIn) :
    (preSave now c).checkInTime = c.checkInTime := by
  simp only [preSave]; split <;> (try split) <;> rfl

/-- The status update leaves a set timestamp alone. -/
theorem stampStatus_keeps (now : Nat) (target : Status) (c : CheckIn) :
    (∀ t, c.calledTime = some t → (stampStatus now target c).1.calledTime = some t)
      ∧ (∀ t, c.serviceStartTime = some t →
          (stampStatus now target c).1.serviceStartTime = some t)
      ∧ (∀ t, c.serviceEndTime = some t →
          (stampStatus now target c).1.serviceEndTime = some t) := by
  unfold stampStatus
  split_ifs with h1 h2 h3
  · exact ⟨fun t ht => by rw [h1.2] at ht; exact absurd ht (by simp), fun _ h => h, fun _ h => h⟩
  · exact ⟨fun _ h => h, fun t ht => by rw [h2.2] at ht; exact absurd ht (by simp), fun _ h => h⟩
  · exact ⟨fun _ h => h, fun _ h => h, fun t ht => by rw [h3.2] at ht; exact absurd ht (by simp)⟩
  · exact ⟨fun _ h => h, fun _ h => h, fun _ h => h⟩

/-- After a status update to a target, the timestamp of that target is set. -/
theorem stampStatus_sets (now : Nat) (target : Status) (c : CheckIn) :
    (target = Status.called → (stampStatus now target c).1.calledTime ≠ none)
      ∧ (target = Status.inService → (stampStatus now target c).1.serviceStartTime ≠ none)
      ∧ (target = Status.completed → (stampStatus now target c).1.serviceEndTime ≠ none) := by
  unfold stampStatus
  split_ifs with h1 h2 h3 <;> simp_all

/-- When the timestamp of the target is set, the chain changes nothing. -/
theorem stampStatus_fixed (now : Nat) (target : Status) (c : CheckIn)
    (hc : target = Status.called → c.calledTime ≠ none)
    (hs : target = Status.inService → c.serviceStartTime ≠ none)
    (he : target = Status.completed → c.serviceEndTime ≠ none) :
    stampStatus now target c = (c, false) := by
  unfold stampStatus
  split_ifs with h1 h2 h3
  · exact absurd h1.2 (hc h1.1)
  · exact absurd h2.2 (hs h2.1)
  · exact absurd h3.2 (he h3.1)
  · rfl

/-- C12: a status update, to any target, keeps every timestamp of the entry
that is already set, and touches no other entry; applying the same update a
second time (at a later instant) leaves calledTime, serviceStartTime and
serviceEndTime as the first application left them, and changes no clinic
counter. -/
theorem updateStatus_keeps_set_timestamps (env env2 : Env) (checkInId : String)
    (target : Status) (s : State) (i : Nat) (found : CheckIn)
    (hfind : findOne (fun c => c.checkInId == checkInId) s.checkIns = some (i, found)) :
    ∃ saved again,
      (updateStatus env checkInId target s).1.checkIns = s.checkIns.set i saved
        ∧ (∀ t, found.calledTime = some t → saved.calledTime = some t)
        ∧ (∀ t, found.serviceStartTime = some t → saved.serviceStartTime = some t)
        ∧ (∀ t, found.serviceEndTime = some t → saved.serviceEndTime = some t)
        ∧ (updateStatus env2 checkInId target (updateStatus env checkInId target s).1).1.checkIns
            = s.checkIns.set i again
        ∧ again.calledTime = saved.calledTime
        ∧ again.serviceStartTime = saved.serviceStartTime
        ∧ again.serviceEndTime = saved.serviceEndTime
        ∧ (updateStatus env2 checkInId target (updateStatus env checkInId target s).1).1.clinics
            = (updateStatus env checkInId target s).1.clinics := by
  obtain ⟨hget, hp⟩ := findOne_some _ _ _ _ hfind
  obtain ⟨k1, k2, k3⟩ := stampStatus_keeps env.now target { found with status := target }
  obtain ⟨g1, g2, g3⟩ := stampStatus_sets env.now target { found with status := target }
  have hfind2 : findOne (fun c => c.checkInId == checkInId)
      (s.checkIns.set i
        (preSave env.now (stampStatus env.now target { found with status := target }).1))
      = some (i, preSave env.now (stampStatus env.now target { found with status := target }).1) :=
    findOne_set _ _ _ _ _ hfind (by simpa using hp)
  have hfix := stampStatus_fixed env2.now target
    { preSave env.now (stampStatus env.now target { found with status := target }).1 with
      status := target }
    (by simpa [preSave_calledTime] using g1)
    (by simpa [preSave_serviceStartTime] using g2)
    (by simpa [preSave_serviceEndTime] using g3)
  refine ⟨preSave env.now (stampStatus env.now target { found with status := target }).1,
    preSave env2.now
      { preSave env.now (stampStatus env.now target { found with status := target }).1 with
        status := target }, ?_, ?_, ?_, ?_, ?_, ?_, ?_, ?_, ?_⟩
  · rw [updateStatus_state, hfind]
  · intro t ht; rw [preSave_calledTime]; exact k1 t ht
  · intro t ht; rw [preSave_serviceStartTime]; exact k2 t ht
  · intro t ht; rw [preSave_serviceEndTime]; exact k3 t ht
  · rw [updateStatus_state env2 checkInId target (updateStatus env checkInId target s).1,
      updateStatus_state env checkInId target s, hfind]
    simp only [hfind2, hfix, List.set_set]
  · rw [preSave_calledTime]
  · rw [preSave_serviceStartTime]
  · rw [preSave_serviceEndTime]
  · rw [updateStatus_state env2 checkInId target (updateStatus env checkInId target s).1,
      updateStatus_state env checkInId target s, hfind]
    simp only [hfind2, hfix, Bool.false_eq_true, if_false]

/-- C12, at the entry P1 that call-next called at 2000: the update to called
at 3000 keeps calledTime 2000. -/
theorem updateStatus_keeps_set_timestamps_witness :
    findOne (fun c => c.checkInId == "P1")
        (callNext (demoEnv "staff" 2000) "clinic" afterP1).1.checkIns
      = some (0, preSave 2000 { p1First with status := Status.called, calledTime := some 2000 })
    ∧ ∃ saved : CheckIn,
        (updateStatus (demoEnv "staff" 3000) "P1" Status.called
            (callNext (demoEnv "staff" 2000) "clinic" afterP1).1).1.checkIns
          = (callNext (demoEnv "staff" 2000) "clinic" afterP1).1.checkIns.set 0 saved
        ∧ saved.calledTime = some 2000 := by
  refine ⟨by decide, ?_⟩
  obtain ⟨saved, _, h1, h2, _⟩ :=
    updateStatus_keeps_set_timestamps (demoEnv "staff" 3000) (demoEnv "staff" 4000) "P1"
      Status.called (callNext (demoEnv "staff" 2000) "clinic" afterP1).1 0
      (preSave 2000 { p1First with status := Status.called, calledTime := some 2000 })
      (by decide)
  exact ⟨saved, h1, h2 2000 (by decide)⟩

/-! ## C13: calledTime under call-next -/

/-- C13 (code at the failing input): P1 was called at 2000 and put back to
waiting, so it is waiting with calledTime 2000; call-next at 4000 calls it
again and overwrites calledTime with 4000, where the status update to called
keeps 2000. -/
theorem callNext_overwrites_calledTime :
    calledThenWaiting.checkIns.map (fun c => (c.checkInId, c.status, c.calledTime))
        = [("P1", Status.waiting, some 2000)]
      ∧ (callNext (demoEnv "staff" 4000) "clinic" calledThenWaiting).2
          = Response.patientCalled "P1"
      ∧ (callNext (demoEnv "staff" 4000) "clinic" calledThenWaiting).1.checkIns.map
          (fun c => (c.checkInId, c.status, c.calledTime)) = [("P1", Status.called, some 4000)]
      ∧ (updateStatus (demoEnv "staff" 4000) "P1" Status.called calledThenWaiting).1.checkIns.map
          (fun c => (c.checkInId, c.status, c.calledTime)) = [("P1", Status.called, some 2000)] := by
  decide

/-! ## C16: call-next on an empty queue -/

/-- C16: call-next answers "no patients in queue" exactly when the clinic has
no entry with status waiting, and then the database (entries and clinic
counters) is left as it was. -/
theorem callNext_empty_iff_no_waiting (env : Env) (clinicId : String) (s : State) :
    ((callNext env clinicId s).2 = Response.noPatientsInQueue
        ↔ ∀ c ∈ s.checkIns, ¬ (c.clinicId = clinicId ∧ c.status = Status.waiting))
      ∧ ((callNext env clinicId s).2 = Response.noPatientsInQueue →
          (callNext env clinicId s).1 = s) := by
  cases hsel : nextCheckIn clinicId s.checkIns with
  | none =>
    have hnone := findOneSorted_none _ _ _ hsel
    refine ⟨⟨fun _ c hc hw => ?_, fun _ => by simp [callNext, hsel]⟩,
      fun _ => by simp [callNext, hsel]⟩
    have := hnone c hc
    simp [isWaitingIn, hw.1, hw.2] at this
  | some r =>
    obtain ⟨i, next⟩ := r
    obtain ⟨hget, hcl, hst⟩ := nextCheckIn_some _ _ _ _ hsel
    have hresp : (callNext env clinicId s).2 ≠ Response.noPatientsInQueue := by
      simp only [callNext, hsel]; split <;> simp
    refine ⟨⟨fun h => absurd h hresp, fun h => ?_⟩, fun h => absurd h hresp⟩
    exact absurd ⟨hcl, hst⟩ (h next (List.getElem?_mem hget))

/-! ## C17: completion -/

theorem updateClinic_found (clinicId : String) (f : Clinic → Clinic) (clinics : List Clinic)
    (j : Nat) (clinic : Clinic)
    (h : findOne (fun c => c.clinicId == clinicId) clinics = some (j, clinic)) :
    updateClinic clinicId f clinics = clinics.set j (f clinic) := by
  simp [updateClinic, h]

/-- C17: for an entry whose serviceEndTime is unset and whose clinic is
stored, the status update to completed sets serviceEndTime to the current
instant, adds 1 to the clinic's totalPatientsServed and takes 1 from its
currentQueueSize, the other clinics untouched; the same update applied again
changes no clinic and leaves serviceEndTime as it is. -/
theorem updateStatus_completed_counts_once (env env2 : Env) (checkInId : String) (s : State)
    (i : Nat) (found : CheckIn) (j : Nat) (clinic : Clinic)
    (hfind : findOne (fun c => c.checkInId == checkInId) s.checkIns = some (i, found))
    (hend : found.serviceEndTime = none)
    (hclinic : findOne (fun c => c.clinicId == found.clinicId) s.clinics = some (j, clinic)) :
    ∃ saved again,
      (updateStatus env checkInId Status.completed s).1.checkIns = s.checkIns.set i saved
        ∧ saved.status = Status.completed
        ∧ saved.serviceEndTime = some env.now
        ∧ (updateStatus env checkInId Status.completed s).1.clinics
            = s.clinics.set j
                { clinic with currentQueueSize := clinic.currentQueueSize - 1
                              totalPatientsServed := clinic.totalPatientsServed + 1 }
        ∧ (updateStatus env2 checkInId Status.completed
              (updateStatus env checkInId Status.completed s).1).1.checkIns
            = s.checkIns.set i again
        ∧ again.serviceEndTime = some env.now
        ∧ (updateStatus env2 checkInId Status.completed
              (updateStatus env checkInId Status.completed s).1).1.clinics
            = (updateStatus env checkInId Status.completed s).1.clinics := by
  obtain ⟨hget, hp⟩ := findOne_some _ _ _ _ hfind
  have hst : stampStatus env.now Status.completed { found with status := Status.completed }
      = ({ found with status := Status.completed, serviceEndTime := some env.now }, true) := by
    simp [stampStatus, hend]
  have hfind2 : findOne (fun c => c.checkInId == checkInId)
      (s.checkIns.set i
        (preSave env.now { found with status := Status.completed, serviceEndTime := some env.now }))
      = some (i, preSave env.now
          { found with status := Status.completed, serviceEndTime := some env.now }) :=
    findOne_set _ _ _ _ _ hfind (by simpa using hp)
  have hfix := stampStatus_fixed env2.now Status.completed
    { preSave env.now { found with status := Status.completed, serviceEndTime := some env.now }
      with status := Status.completed }
    (by simp) (by simp) (by simp)
  refine ⟨preSave env.now { found with status := Status.completed, serviceEndTime := some env.now },
    preSave env2.now
      { preSave env.now { found with status := Status.completed, serviceEndTime := some env.now }
        with status := Status.completed }, ?_, ?_, ?_, ?_, ?_, ?_, ?_⟩
  · rw [updateStatus_state, hfind]; simp only [hst]
  · simp
  · simp
  · rw [updateStatus_state, hfind]
    simp only [hst, if_true, updateClinic_found _ _ _ _ _ hclinic, incOnCompleted]
  · rw [updateStatus_state env2 checkInId Status.completed
        (updateStatus env checkInId Status.completed s).1,
      updateStatus_state env checkInId Status.completed s, hfind]
    simp only [hst, hfind2, hfix, List.set_set]
  · simp
  · rw [updateStatus_state env2 checkInId Status.completed
        (updateStatus env checkInId Status.completed s).1,
      updateStatus_state env checkInId Status.completed s, hfind]
    simp only [hst, hfind2, hfix, Bool.false_eq_true, if_false]

/-- C17, at the waiting entry P1 of `demoClinic`: the counter goes from 1 to
0 and the served count from 0 to 1. -/
theorem updateStatus_completed_counts_once_witness :
    findOne (fun c => c.checkInId == "P1") afterP1.checkIns = some (0, p1First)
      ∧ p1First.serviceEndTime = none
      ∧ findOne (fun c => c.clinicId == p1First.clinicId) afterP1.clinics
          = some (0, { demoClinic with currentQueueSize := 1, totalCheckIns := 1 })
      ∧ (updateStatus (demoEnv "staff" 2000) "P1" Status.completed afterP1).1.clinics
          = [{ demoClinic with currentQueueSize := 0, totalCheckIns := 1,
                               totalPatientsServed := 1 }] := by
  refine ⟨by decide, by decide, by decide, ?_⟩
  obtain ⟨_, _, _, _, _, h4, _⟩ :=
    updateStatus_completed_counts_once (demoEnv "staff" 2000) (demoEnv "staff" 3000) "P1"
      afterP1 0 p1First 0 { demoClinic with currentQueueSize := 1, totalCheckIns := 1 }
      (by decide) (by decide) (by decide)
  rw [h4]
  decide

/-! ## C15: the position query -/

/-- C15 (counterexample): P1 (low, position 1) and P2 (normal, position 2)
are waiting. One active entry, P2, sorts before P1 under the rank order of
the specification and under the order call-next uses, so the claimed rank of
P1 is 2 and that of P2 is 1; the position query reports 1 for P1 and 2 for
P2. -/
theorem positionOf_ignores_priority :
    lowThenNormal.checkIns.map (fun c => (c.checkInId, c.priority, c.queuePosition, c.status))
        = [("P1", Priority.low, 1, Status.waiting), ("P2", Priority.normal, 2, Status.waiting)]
      ∧ lowThenNormal.checkIns.map (fun e =>
            (countDocuments (fun c => queuedIn e.clinicId c && specBefore c e)
                lowThenNormal.checkIns + 1,
             countDocuments (fun c => queuedIn e.clinicId c && sortsBefore c e)
                lowThenNormal.checkIns + 1))
          = [(2, 2), (1, 1)]
      ∧ positionOf "P1" lowThenNormal = some (1, 1)
      ∧ positionOf "P2" lowThenNormal = some (2, 2) := by
  decide

theorem specBefore_same_priority (c e : CheckIn) (h : c.priority = e.priority) :
    specBefore c e = decide (c.queuePosition < e.queuePosition) := by
  simp [specBefore, h]

theorem sortsBefore_same_priority (c e : CheckIn) (h : c.priority = e.priority) :
    sortsBefore c e = decide (c.queuePosition < e.queuePosition) := by
  rw [Bool.eq_iff_iff, sortsBefore_iff, h]
  simp

/-- C15 (amended): the current rank reported by the position query equals 1
plus the number of entries of the same clinic with status waiting or called
whose queuePosition is strictly smaller; priority is not consulted. When all
waiting or called entries of the clinic have the priority of the queried
entry, this is 1 plus the number of them that sort before it under the
call-next order (and under the rank order of the specification). -/
theorem positionOf_counts_smaller_positions (checkInId : String) (s : State) (i : Nat)
    (e : CheckIn)
    (hfind : findOne (fun c => c.checkInId == checkInId) s.checkIns = some (i, e)) :
    positionOf checkInId s
        = some (countDocuments (fun c => queuedIn e.clinicId c
                  && decide (c.queuePosition < e.queuePosition)) s.checkIns + 1,
                e.queuePosition)
      ∧ ((∀ c ∈ s.checkIns, queuedIn e.clinicId c = true → c.priority = e.priority) →
          countDocuments (fun c => queuedIn e.clinicId c
              && decide (c.queuePosition < e.queuePosition)) s.checkIns
            = countDocuments (fun c => queuedIn e.clinicId c && sortsBefore c e) s.checkIns
          ∧ countDocuments (fun c => queuedIn e.clinicId c
              && decide (c.queuePosition < e.queuePosition)) s.checkIns
            = countDocuments (fun c => queuedIn e.clinicId c && specBefore c e) s.checkIns) := by
  refine ⟨?_, fun hsame => ⟨?_, ?_⟩⟩
  · simp only [positionOf, hfind, queuedIn]
  · apply countDocuments_congr
    intro c hc
    by_cases hq : queuedIn e.clinicId c = true
    · rw [sortsBefore_same_priority c e (hsame c hc hq)]
    · simp only [Bool.not_eq_true] at hq; simp [hq]
  · apply countDocuments_congr
    intro c hc
    by_cases hq : queuedIn e.clinicId c = true
    · rw [specBefore_same_priority c e (hsame c hc hq)]
    · simp only [Bool.not_eq_true] at hq; simp [hq]

/-- C15 (amended), at P2 of Scenario A (both entries of priority normal). -/
theorem positionOf_counts_smaller_positions_witness :
    findOne (fun c => c.checkInId == "P2") scenarioA.checkIns
        = some (1, preSave 2000 (newCheckIn (demoEnv "P2" 2000) (demoRequest none)
            { patientId := "P2", firstName := "Pat", lastName := "Doe" } "consultation"
            Priority.normal 2 30 (false, none)))
      ∧ positionOf "P2" scenarioA = some (2, 2) := by
  refine ⟨by decide, ?_⟩
  have h := (positionOf_counts_smaller_positions "P2" scenarioA 1
    (preSave 2000 (newCheckIn (demoEnv "P2" 2000) (demoRequest none)
      { patientId := "P2", firstName := "Pat", lastName := "Doe" } "consultation"
      Priority.normal 2 30 (false, none))) (by decide)).1
  rw [h]
  decide

/-! ## C19: the absent event sink -/

/-- C19 (code at the failing input): served without a registered `io`, the
check-in of P1, and then the status update, the call-next and the cancel of
P1, each store their change (the database is the one the same request leaves
with `io` registered) and each answer with a server error. -/
theorem absent_sink_reports_failure :
    checkIn (serverlessEnv "P1" 1000) (demoRequest none) demoState
        = (afterP1, Response.serverError)
      ∧ afterP1 ≠ demoState
      ∧ updateStatus (serverlessEnv "staff" 2000) "P1" Status.called afterP1
        = ((updateStatus (demoEnv "staff" 2000) "P1" Status.called afterP1).1,
            Response.serverError)
      ∧ (updateStatus (demoEnv "staff" 2000) "P1" Status.called afterP1).1 ≠ afterP1
      ∧ callNext (serverlessEnv "staff" 2000) "clinic" afterP1
        = ((callNext (demoEnv "staff" 2000) "clinic" afterP1).1, Response.serverError)
      ∧ (callNext (demoEnv "staff" 2000) "clinic" afterP1).1 ≠ afterP1
      ∧ cancel (serverlessEnv "P1" 2000) "P1" afterP1
        = ((cancel (demoEnv "P1" 2000) "P1" afterP1).1, Response.serverError)
      ∧ (cancel (demoEnv "P1" 2000) "P1" afterP1).1 ≠ afterP1 := by
  decide

/-! ## C14: actualWaitTime is derived -/

/-- The entries a check-in leaves: the old ones, and at most one new document
that went through `save`. -/
theorem checkIn_checkIns (env : Env) (req : CheckInRequest) (s : State) :
    (checkIn env req s).1.checkIns = s.checkIns
      ∨ ∃ patient visitReason priority pos est ver,
          (checkIn env req s).1.checkIns
            = s.checkIns ++ [preSave env.now
                (newCheckIn env req patient visitReason priority pos est ver)] := by
  unfold checkIn
  split
  · exact Or.inl rfl
  · split
    · exact Or.inl rfl
    · split
      · exact Or.inl rfl
      · split
        · exact Or.inl rfl
        · split
          · split
            · exact Or.inl rfl
            · split <;> exact Or.inr ⟨_, _, _, _, _, _, rfl⟩
          · exact Or.inl rfl

theorem waitDerived_preSave (now : Nat) (c : CheckIn) (h : WaitDerived c) :
    WaitDerived (preSave now c) := by
  obtain ⟨h1, h2⟩ := h
  simp only [preSave]
  split
  · rename_i start hstart
    split
    · refine ⟨by simp [hstart], ?_⟩
      intro st hst
      simp only [hstart, Option.some.injEq] at hst
      subst hst
      rfl
    · exact ⟨h1, h2⟩
  · exact ⟨h1, h2⟩

theorem waitDerived_preSave_started (now start : Nat) (c : CheckIn)
    (hstatus : c.status = Status.inService) (hstart : c.serviceStartTime = some start)
    (hwait : c.actualWaitTime = none) : WaitDerived (preSave now c) := by
  simp only [preSave, hstart, hstatus, hwait]
  simp [WaitDerived, hstart]

theorem waitDerived_updateStatus (now : Nat) (target : Status) (c : CheckIn)
    (h : WaitDerived c) :
    WaitDerived (preSave now (stampStatus now target { c with status := target }).1) := by
  unfold stampStatus
  split_ifs with h1 h2 h3
  · exact waitDerived_preSave now _ h
  · have hnone : c.actualWaitTime = none := by
      have := h.1
      simp only [] at h2
      rw [h2.2] at this
      cases hw : c.actualWaitTime with
      | none => rfl
      | some v => rw [hw] at this; simp at this
    exact waitDerived_preSave_started now now _ h2.1 rfl hnone
  · exact waitDerived_preSave now _ h
  · exact waitDerived_preSave now _ h

theorem waitDerived_step (env : Env) (op : Op) (s : State)
    (h : ∀ e ∈ s.checkIns, WaitDerived e) : ∀ e ∈ (step env op s).1.checkIns, WaitDerived e := by
  cases op with
  | checkIn req =>
    simp only [step]
    rcases checkIn_checkIns env req s with h1 | ⟨patient, visitReason, priority, pos, est, ver, h1⟩
    · rw [h1]; exact h
    · rw [h1]
      intro e he
      rcases List.mem_append.1 he with he | he
      · exact h e he
      · simp only [List.mem_singleton] at he
        rw [he]
        exact waitDerived_preSave _ _ (by simp [WaitDerived, newCheckIn])
  | updateStatus checkInId target =>
    simp only [step]
    rw [updateStatus_state]
    cases hf : findOne (fun c => c.checkInId == checkInId) s.checkIns with
    | none => exact h
    | some r =>
      obtain ⟨i, found⟩ := r
      obtain ⟨hget, _⟩ := findOne_some _ _ _ _ hf
      intro e he
      rcases mem_set _ _ _ _ he with rfl | he
      · exact waitDerived_updateStatus _ _ _ (h found (List.getElem?_mem hget))
      · exact h e he
  | callNext clinicId =>
    simp only [step]
    rw [callNext_state]
    cases hf : nextCheckIn clinicId s.checkIns with
    | none => exact h
    | some r =>
      obtain ⟨i, next⟩ := r
      obtain ⟨hget, _, _⟩ := nextCheckIn_some _ _ _ _ hf
      intro e he
      rcases mem_set _ _ _ _ he with rfl | he
      · exact waitDerived_preSave _ _ (h next (List.getElem?_mem hget))
      · exact h e he
  | cancel checkInId =>
    simp only [step]
    rw [cancel_state]
    cases hf : findOne (fun c => c.checkInId == checkInId) s.checkIns with
    | none => exact h
    | some r =>
      obtain ⟨i, found⟩ := r
      obtain ⟨hget, _⟩ := findOne_some _ _ _ _ hf
      intro e he
      rcases mem_set _ _ _ _ he with rfl | he
      · exact h found (List.getElem?_mem hget)
      · exact h e he

theorem waitDerived_run (steps : List (Env × Op)) (s : State)
    (h : ∀ e ∈ s.checkIns, WaitDerived e) : ∀ e ∈ (run steps s).checkIns, WaitDerived e := by
  induction steps generalizing s with
  | nil => exact h
  | cons x rest ih =>
    obtain ⟨env, op⟩ := x
    exact ih _ (waitDerived_step env op s h)

/-- C14: in every state reached from a database without entries by check-in,
status-update, call-next and cancel operations, every entry has
actualWaitTime set exactly when its serviceStartTime is set, and then
actualWaitTime is `roundMinutes (serviceStartTime - checkInTime)`, the
integer nearest to the difference in milliseconds divided by 60000 (a half
rounded up). -/
theorem actualWaitTime_derived_on_runs (s0 : State) (steps : List (Env × Op))
    (hstart : s0.checkIns = []) :
    (∀ e ∈ (run steps s0).checkIns,
        (e.actualWaitTime.isSome ↔ e.serviceStartTime.isSome)
          ∧ ∀ start, e.serviceStartTime = some start →
              e.actualWaitTime
                = some (roundMinutes ((start : Int) - (e.checkInTime : Int))))
      ∧ ∀ d : Int, 60000 * roundMinutes d - 30000 ≤ d ∧ d < 60000 * roundMinutes d + 30000 := by
  refine ⟨?_, ?_⟩
  · intro e he
    exact waitDerived_run steps s0 (by rw [hstart]; intro e he; exact absurd he (List.not_mem_nil _))
      e he
  · intro d
    unfold roundMinutes
    constructor <;> omega

/-- C14, on `servedRun`: P1 checked in at 1000 and was put in service at
151000, two and a half minutes later; its actualWaitTime is 3. -/
theorem actualWaitTime_derived_on_runs_witness :
    demoState.checkIns = []
      ∧ (run servedRun demoState).checkIns.map
          (fun c => (c.checkInTime, c.serviceStartTime, c.actualWaitTime))
        = [(1000, some 151000, some 3)]
      ∧ ∀ e ∈ (run servedRun demoState).checkIns,
          ∀ start, e.serviceStartTime = some start →
            e.actualWaitTime = some (roundMinutes ((start : Int) - (e.checkInTime : Int))) :=
  ⟨by decide, by decide, fun e he =>
    ((actualWaitTime_derived_on_runs demoState servedRun (by decide)).1 e he).2⟩

/-! ## C21: what the later operations leave alone -/

theorem map_set_same {α β : Type} (f : α → β) (l : List α) (i : Nat) (a b : α)
    (h : l[i]? = some a) (hf : f b = f a) : (l.set i b).map f = l.map f := by
  induction l generalizing i with
  | nil => simp at h
  | cons x xs ih =>
    cases i with
    | zero =>
      simp only [List.getElem?_cons_zero, Option.some.injEq] at h
      subst h
      simp [hf]
    | succ j =>
      simp only [List.getElem?_cons_succ] at h
      simp [ih j h]

theorem preSave_createdFields (now : Nat) (c : CheckIn) :
    (preSave now c).createdFields = c.createdFields := by
  simp only [preSave]; split <;> (try split) <;> rfl

theorem stampStatus_createdFields (now : Nat) (target : Status) (c : CheckIn) :
    (stampStatus now target c).1.createdFields = c.createdFields := by
  unfold stampStatus; split_ifs <;> rfl

/-- C21: a status update (to any target), a call-next and a cancel leave the
checkInId, clinicId, patientId, priority, queuePosition, checkInTime and
estimatedWaitTime of every stored entry as they were, and neither add nor
remove an entry. -/
theorem later_operations_keep_created_fields (env : Env) (s : State) :
    (∀ checkInId target,
        (updateStatus env checkInId target s).1.checkIns.map CheckIn.createdFields
          = s.checkIns.map CheckIn.createdFields)
      ∧ (∀ clinicId,
          (callNext env clinicId s).1.checkIns.map CheckIn.createdFields
            = s.checkIns.map CheckIn.createdFields)
      ∧ (∀ checkInId,
          (cancel env checkInId s).1.checkIns.map CheckIn.createdFields
            = s.checkIns.map CheckIn.createdFields) := by
  refine ⟨?_, ?_, ?_⟩
  · intro checkInId target
    rw [updateStatus_state]
    cases hf : findOne (fun c => c.checkInId == checkInId) s.checkIns with
    | none => rfl
    | some r =>
      obtain ⟨i, found⟩ := r
      obtain ⟨hget, _⟩ := findOne_some _ _ _ _ hf
      exact map_set_same _ _ _ _ _ hget
        (by rw [preSave_createdFields, stampStatus_createdFields]; rfl)
  · intro clinicId
    rw [callNext_state]
    cases hf : nextCheckIn clinicId s.checkIns with
    | none => rfl
    | some r =>
      obtain ⟨i, next⟩ := r
      obtain ⟨hget, _, _⟩ := nextCheckIn_some _ _ _ _ hf
      exact map_set_same _ _ _ _ _ hget (by rw [preSave_createdFields]; rfl)
  · intro checkInId
    rw [cancel_state]
    cases hf : findOne (fun c => c.checkInId == checkInId) s.checkIns with
    | none => rfl
    | some r =>
      obtain ⟨i, found⟩ := r
      obtain ⟨hget, _⟩ := findOne_some _ _ _ _ hf
      exact map_set_same _ _ _ _ _ hget rfl

/-! ## C22: the counter and the unfinished entries -/

theorem stampStatus_serviceEndTime_of_false (now : Nat) (target : Status) (c : CheckIn)
    (h : (stampStatus now target c).2 = false) :
    (stampStatus now target c).1.serviceEndTime = c.serviceEndTime := by
  unfold stampStatus at h ⊢
  split_ifs at h ⊢ <;> rfl

theorem stampStatus_serviceEndTime_of_true (now : Nat) (target : Status) (c : CheckIn)
    (h : (stampStatus now target c).2 = true) :
    (stampStatus now target c).1.serviceEndTime = some now ∧ c.serviceEndTime = none := by
  unfold stampStatus at h ⊢
  split_ifs at h ⊢ with h1 h2 h3
  exact ⟨rfl, h3.2⟩

theorem unfinishedCount_set_same (clinicId : String) (l : List CheckIn) (i : Nat)
    (a b : CheckIn) (h : l[i]? = some a) (hc : b.clinicId = a.clinicId)
    (hend : b.serviceEndTime = a.serviceEndTime) :
    unfinishedCount clinicId (l.set i b) = unfinishedCount clinicId l := by
  have := countDocuments_set (fun c => c.clinicId == clinicId && c.serviceEndTime.isNone)
    l i a b h
  simp only [hc, hend] at this
  unfold unfinishedCount
  omega

theorem countDocuments_set_finished (clinicId : String) (l : List CheckIn) (i : Nat)
    (a b : CheckIn) (t : Nat) (h : l[i]? = some a) (hc : b.clinicId = a.clinicId)
    (ha : a.serviceEndTime = none) (hb : b.serviceEndTime = some t) :
    countDocuments (fun c => c.clinicId == clinicId && c.serviceEndTime.isNone) (l.set i b)
        + (if a.clinicId = clinicId then 1 else 0)
      = countDocuments (fun c => c.clinicId == clinicId && c.serviceEndTime.isNone) l := by
  have := countDocuments_set (fun c => c.clinicId == clinicId && c.serviceEndTime.isNone)
    l i a b h
  simp only [hc, ha, hb, Option.isNone_some, Option.isNone_none, Bool.and_false, Bool.and_true,
    Bool.false_eq_true, if_false, Nat.add_zero, beq_iff_eq] at this
  exact this

theorem countsUnfinished_set_same (s : State) (i : Nat) (a b : CheckIn)
    (hinv : CountsUnfinished s) (h : s.checkIns[i]? = some a) (hc : b.clinicId = a.clinicId)
    (hend : b.serviceEndTime = a.serviceEndTime) :
    CountsUnfinished { s with checkIns := s.checkIns.set i b } := by
  refine ⟨hinv.1, ?_⟩
  intro c hcm
  simp only [unfinishedCount_set_same _ _ _ _ _ h hc hend]
  exact hinv.2 c hcm

theorem countsUnfinished_checkIn (env : Env) (req : CheckInRequest) (s : State)
    (hinv : CountsUnfinished s) : CountsUnfinished (checkIn env req s).1 := by
  obtain ⟨hnd, hcount⟩ := hinv
  rcases checkIn_cases env req s with ⟨h1, h2, _⟩ |
    ⟨i, clinic, doc, _, _, h1, h2, _, _, _, hdc, _, _, hde, _⟩
  · unfold CountsUnfinished; rw [h1, h2]; exact ⟨hnd, hcount⟩
  · unfold CountsUnfinished; rw [h1, h2]
    refine ⟨?_, ?_⟩
    · rw [updateClinic_map_clinicId req.clinicId incOnCheckIn (fun _ => rfl)]; exact hnd
    · intro c' hc'
      unfold unfinishedCount
      rw [countDocuments_append]
      rcases mem_updateClinic _ _ _ hnd c' hc' with ⟨hm, hne⟩ | ⟨c, hm, hid, rfl⟩
      · have := hcount c' hm
        unfold unfinishedCount at this
        have hne' : ¬ req.clinicId = c'.clinicId := fun h => hne h.symm
        simp [hdc, hne', this]
      · have := hcount c hm
        unfold unfinishedCount at this
        simp [incOnCheckIn, hdc, hid, hde, this]

theorem countsUnfinished_updateStatus (env : Env) (checkInId : String) (target : Status)
    (s : State) (hinv : CountsUnfinished s) :
    CountsUnfinished (updateStatus env checkInId target s).1 := by
  rw [updateStatus_state]
  cases hf : findOne (fun c => c.checkInId == checkInId) s.checkIns with
  | none => exact hinv
  | some r =>
    obtain ⟨i, found⟩ := r
    obtain ⟨hget, _⟩ := findOne_some _ _ _ _ hf
    by_cases hst : (stampStatus env.now target { found with status := target }).2 = true
    case neg =>
      simp only [hst, if_false]
      exact countsUnfinished_set_same s i found _ hinv hget (by simp)
        (by rw [preSave_serviceEndTime, stampStatus_serviceEndTime_of_false env.now target _
          (by simpa using hst)])
    case pos =>
      simp only [hst, if_true]
      obtain ⟨hnow, hnone⟩ := stampStatus_serviceEndTime_of_true env.now target _ hst
      simp only [] at hnone
      obtain ⟨hnd, hcount⟩ := hinv
      have key := fun cid : String =>
        countDocuments_set_finished cid s.checkIns i found
          (preSave env.now (stampStatus env.now target { found with status := target }).1)
          env.now hget (by simp) hnone (by rw [preSave_serviceEndTime]; exact hnow)
      refine ⟨?_, ?_⟩
      · simp only []
        rw [updateClinic_map_clinicId found.clinicId incOnCompleted (fun _ => rfl)]; exact hnd
      · intro c' hc'
        simp only [] at hc' ⊢
        unfold unfinishedCount
        rcases mem_updateClinic _ _ _ hnd c' hc' with ⟨hm, hne⟩ | ⟨c, hm, hid, rfl⟩
        · have h1 := hcount c' hm
          have h2 := key c'.clinicId
          have hne' : ¬ found.clinicId = c'.clinicId := fun h => hne h.symm
          simp only [hne', if_false, Nat.add_zero] at h2
          unfold unfinishedCount at h1
          rw [h2]; exact h1
        · have h1 := hcount c hm
          have h2 := key found.clinicId
          simp only [if_true] at h2
          unfold unfinishedCount at h1
          simp only [incOnCompleted, hid] at h1 ⊢
          omega

theorem countsUnfinished_step (env : Env) (op : Op) (s : State) (hinv : CountsUnfinished s) :
    CountsUnfinished (step env op s).1 := by
  cases op with
  | checkIn req => exact countsUnfinished_checkIn env req s hinv
  | updateStatus checkInId target => exact countsUnfinished_updateStatus env checkInId target s hinv
  | callNext clinicId =>
    simp only [step]
    rw [callNext_state]
    cases hf : nextCheckIn clinicId s.checkIns with
    | none => exact hinv
    | some r =>
      obtain ⟨i, next⟩ := r
      obtain ⟨hget, _, _⟩ := nextCheckIn_some _ _ _ _ hf
      exact countsUnfinished_set_same s i next _ hinv hget (by simp) (by simp)
  | cancel checkInId =>
    simp only [step]
    rw [cancel_state]
    cases hf : findOne (fun c => c.checkInId == checkInId) s.checkIns with
    | none => exact hinv
    | some r =>
      obtain ⟨i, found⟩ := r
      obtain ⟨hget, _⟩ := findOne_some _ _ _ _ hf
      exact countsUnfinished_set_same s i found { found with status := Status.cancelled } hinv
        hget rfl rfl

theorem countsUnfinished_run (steps : List (Env × Op)) (s : State) (hinv : CountsUnfinished s) :
    CountsUnfinished (run steps s) := by
  induction steps generalizing s with
  | nil => exact hinv
  | cons x rest ih =>
    obtain ⟨env, op⟩ := x
    exact ih _ (countsUnfinished_step env op s hinv)

/-- C22: in every state reached from an empty system (no entries, every
currentQueueSize 0, unique clinic ids) by check-in, status-update, call-next
and cancel operations, each clinic's currentQueueSize equals the number of
that clinic's entries whose serviceEndTime is unset; in particular it is
never negative. -/
theorem counter_counts_unfinished_entries (s0 : State) (steps : List (Env × Op))
    (hempty : emptyClinics s0 = true)
    (hunique : (s0.clinics.map (fun c => c.clinicId)).Nodup) :
    ∀ c ∈ (run steps s0).clinics,
      c.currentQueueSize = (unfinishedCount c.clinicId (run steps s0).checkIns : Int)
        ∧ 0 ≤ c.currentQueueSize := by
  have hinit : CountsUnfinished s0 := by
    simp only [emptyClinics, Bool.and_eq_true, List.isEmpty_iff, List.all_eq_true,
      beq_iff_eq] at hempty
    refine ⟨hunique, ?_⟩
    intro c hc
    rw [hempty.1]
    simpa [unfinishedCount, countDocuments] using hempty.2 c hc
  intro c hc
  have h := (countsUnfinished_run steps s0 hinit).2 c hc
  exact ⟨h, by rw [h]; exact Int.natCast_nonneg _⟩

/-- C22, on `mixedRun`: one entry completed, one cancelled, one no-show; the
counter is 2, the number of entries without serviceEndTime. -/
theorem counter_counts_unfinished_entries_witness :
    emptyClinics demoState = true
      ∧ (demoState.clinics.map (fun c => c.clinicId)).Nodup
      ∧ (run mixedRun demoState).clinics.map (fun c => c.currentQueueSize) = [2]
      ∧ ∀ c ∈ (run mixedRun demoState).clinics,
          c.currentQueueSize = (unfinishedCount c.clinicId (run mixedRun demoState).checkIns : Int)
            ∧ 0 ≤ c.currentQueueSize :=
  ⟨by decide, by decide, by decide,
    counter_counts_unfinished_entries demoState mixedRun (by decide) (by decide)⟩

/-! ## C18: location data at check-in -/

/-- The verify block never verifies: the clinic has no coordinates to compare
with. -/
theorem verifyLocation_unverified (env : Env) (clinic : Clinic)
    (locationData : Option LocationInput) :
    verifyLocation env clinic locationData = (false, none) := by
  unfold verifyLocation
  cases locationData with
  | none => rfl
  | some ld => simp [Clinic.addressLatitude, Clinic.addressLongitude]

/-- C18 (counterexample): two requests that differ only in their location
data, on the same database: the one whose latitude is not a number is
answered with a server error and no entry is stored, its twin is answered
"created". -/
theorem checkIn_garbled_location_is_refused :
    (checkIn (demoEnv "P1" 1000) { demoRequest none with locationData := some locationGarbled }
        gpsState).2 = Response.serverError
      ∧ (checkIn (demoEnv "P1" 1000)
          { demoRequest none with locationData := some locationGarbled } gpsState).1.checkIns = []
      ∧ (checkIn (demoEnv "P1" 1000) { demoRequest none with locationData := some locationNumbers }
          gpsState).2 = Response.created "P1" 1 15 false := by
  decide

/-- The answer and the database of a check-in whose request gets past
`checkIn.save()`, or no new entry and no "created" answer. -/
theorem checkIn_saved (env : Env) (req : CheckInRequest) (s : State) :
    ((checkIn env req s).1.checkIns = s.checkIns ∧ (checkIn env req s).1.clinics = s.clinics
        ∧ ∀ id pos est v, (checkIn env req s).2 ≠ Response.created id pos est v)
    ∨ (locationCasts req.locationData = true
        ∧ ∃ i clinic patients patient visitReason priority,
          findOne (fun c => c.clinicId == req.clinicId && c.isActive) s.clinics = some (i, clinic)
          ∧ (checkIn env req s).1
              = { clinics := updateClinic req.clinicId incOnCheckIn s.clinics
                  patients := patients
                  checkIns := s.checkIns ++ [preSave env.now
                    (newCheckIn env req patient visitReason priority
                      (countDocuments (inCurrentQueue req.clinicId env.today) s.checkIns + 1)
                      (((countDocuments (inCurrentQueue req.clinicId env.today) s.checkIns + 1
                        : Nat) : Int) * clinic.avgWaitTime)
                      (verifyLocation env clinic req.locationData))] }
          ∧ (checkIn env req s).2
              = if env.ioPresent then
                  Response.created env.newCheckInId
                    (countDocuments (inCurrentQueue req.clinicId env.today) s.checkIns + 1)
                    (((countDocuments (inCurrentQueue req.clinicId env.today) s.checkIns + 1
                      : Nat) : Int) * clinic.avgWaitTime)
                    (verifyLocation env clinic req.locationData).1
                else Response.serverError) := by
  unfold checkIn
  cases hc : findOne (fun c => c.clinicId == req.clinicId && c.isActive) s.clinics with
  | none => left; simp
  | some r =>
    obtain ⟨i, clinic⟩ := r
    simp only []
    by_cases hfull : clinic.currentQueueSize ≥ clinic.maxQueueSize
    · left; simp [hfull]
    · simp only [hfull, if_false]
      cases hinfo : req.patientInfo with
      | none => left; simp
      | some info =>
        simp only []
        cases hpat : resolvePatient env info s.patients with
        | none => left; simp
        | some pp =>
          obtain ⟨patients, patient⟩ := pp
          simp only []
          split
          · rename_i visitReason priority hv hp
            by_cases hbad : visitReason = "" ∨
                (s.checkIns.any fun c => c.checkInId == env.newCheckInId) = true
                  ∨ locationCasts req.locationData = false
            · left; simp only [hbad, if_true]; simp
            · right
              simp only [hbad, if_false]
              have hloc : locationCasts req.locationData = true := by
                simp only [not_or, Bool.not_eq_false] at hbad
                exact hbad.2.2
              refine ⟨hloc, i, clinic, patients, patient, visitReason, priority, rfl, ?_, ?_⟩
              · split <;> rfl
              · split <;> rfl
          · left; simp

theorem preSave_locationData (now : Nat) (c : CheckIn) :
    (preSave now c).locationData = c.locationData := by
  simp only [preSave]; split <;> (try split) <;> rfl

theorem preSave_estimatedWaitTime (now : Nat) (c : CheckIn) :
    (preSave now c).estimatedWaitTime = c.estimatedWaitTime := by
  simp only [preSave]; split <;> (try split) <;> rfl

/-- C18 (amended): two check-in requests that differ only in their location
data, both with location numbers that cast (or no location data), served in
the same environment on the same database, get the same answer up to the
locationVerified flag and leave the same clinics, the same patients and the
same entries up to the locationData of the new entry. The new entry stores
the request's location with the verified flag and the distance that the
verify block computed, the flag being the locationVerified of the answer: a
location that is not verified yields verified = false and nothing else. A
request with a location number that does not cast stores no entry, changes
no clinic and is never answered "created". -/
theorem checkIn_castable_locations_agree (env : Env) (req : CheckInRequest)
    (loc1 loc2 : Option LocationInput) (s : State)
    (h1 : locationCasts loc1 = true) (h2 : locationCasts loc2 = true) :
    (checkIn env { req with locationData := loc1 } s).2.withoutVerified
        = (checkIn env { req with locationData := loc2 } s).2.withoutVerified
      ∧ (checkIn env { req with locationData := loc1 } s).1.clinics
        = (checkIn env { req with locationData := loc2 } s).1.clinics
      ∧ (checkIn env { req with locationData := loc1 } s).1.patients
        = (checkIn env { req with locationData := loc2 } s).1.patients
      ∧ (checkIn env { req with locationData := loc1 } s).1.checkIns.map CheckIn.withoutLocation
        = (checkIn env { req with locationData := loc2 } s).1.checkIns.map
            CheckIn.withoutLocation
      ∧ (∀ doc, (checkIn env { req with locationData := loc1 } s).1.checkIns
            = s.checkIns ++ [doc] →
          ∃ i clinic,
            findOne (fun c => c.clinicId == req.clinicId && c.isActive) s.clinics
                = some (i, clinic)
              ∧ doc.locationData = loc1.map (fun ld =>
                  { latitude := ld.latitude.cast?
                    longitude := ld.longitude.cast?
                    accuracy := ld.accuracy.cast?
                    timestamp := env.now
                    verified := (verifyLocation env clinic loc1).1
                    distanceFromClinic := (verifyLocation env clinic loc1).2 })
              ∧ (checkIn env { req with locationData := loc1 } s).2
                  = if env.ioPresent then
                      Response.created env.newCheckInId doc.queuePosition doc.estimatedWaitTime
                        (verifyLocation env clinic loc1).1
                    else Response.serverError)
      ∧ (∀ loc, locationCasts loc = false →
          (checkIn env { req with locationData := loc } s).1.checkIns = s.checkIns
            ∧ (checkIn env { req with locationData := loc } s).1.clinics = s.clinics
            ∧ ∀ id pos est v,
                (checkIn env { req with locationData := loc } s).2
                  ≠ Response.created id pos est v) := by
  have hagree :
      (checkIn env { req with locationData := loc1 } s).2.withoutVerified
          = (checkIn env { req with locationData := loc2 } s).2.withoutVerified
        ∧ (checkIn env { req with locationData := loc1 } s).1.clinics
          = (checkIn env { req with locationData := loc2 } s).1.clinics
        ∧ (checkIn env { req with locationData := loc1 } s).1.patients
          = (checkIn env { req with locationData := loc2 } s).1.patients
        ∧ (checkIn env { req with locationData := loc1 } s).1.checkIns.map
            CheckIn.withoutLocation
          = (checkIn env { req with locationData := loc2 } s).1.checkIns.map
              CheckIn.withoutLocation := by
    unfold checkIn
    simp only []
    cases hc : findOne (fun c => c.clinicId == req.clinicId && c.isActive) s.clinics with
    | none => simp
    | some r =>
      obtain ⟨i, clinic⟩ := r
      simp only []
      by_cases hfull : clinic.currentQueueSize ≥ clinic.maxQueueSize
      · simp [hfull]
      · simp only [hfull, if_false]
        cases hinfo : req.patientInfo with
        | none => simp
        | some info =>
          simp only []
          cases hpat : resolvePatient env info s.patients with
          | none => simp
          | some pp =>
            obtain ⟨patients, patient⟩ := pp
            simp only []
            cases hv : req.visitReason with
            | none => simp
            | some visitReason =>
              cases hp : Priority.ofString? (orNormal req.priority) with
              | none => simp
              | some priority =>
                simp only [h1, h2, Bool.true_eq_false, or_false]
                by_cases hbad : visitReason = "" ∨
                    (s.checkIns.any fun c => c.checkInId == env.newCheckInId) = true
                · simp only [hbad, if_true]
                  exact ⟨trivial, trivial, trivial, trivial⟩
                · simp only [hbad, if_false]
                  by_cases hio : env.ioPresent = true
                  · simp only [hio, if_true]
                    simp [Response.withoutVerified, CheckIn.withoutLocation, preSave, newCheckIn]
                  · simp only [hio, if_false]
                    simp [Response.withoutVerified, CheckIn.withoutLocation, preSave, newCheckIn]
  refine ⟨hagree.1, hagree.2.1, hagree.2.2.1, hagree.2.2.2, ?_, ?_⟩
  · intro doc hdoc
    rcases checkIn_saved env { req with locationData := loc1 } s with ⟨hsame, _, _⟩ |
      ⟨_, i, clinic, patients, patient, visitReason, priority, hclinic, hstate, hresp⟩
    · rw [hsame] at hdoc
      have := congrArg List.length hdoc
      simp at this
    · rw [hstate] at hdoc
      simp only [List.append_cancel_left_eq, List.cons.injEq, and_true] at hdoc
      subst hdoc
      refine ⟨i, clinic, hclinic, ?_, ?_⟩
      · rw [preSave_locationData]; rfl
      · rw [hresp, preSave_queuePosition, preSave_estimatedWaitTime]; rfl
  · intro loc hloc
    rcases checkIn_saved env { req with locationData := loc } s with h |
      ⟨hcast, _⟩
    · exact h
    · simp only [] at hcast
      rw [hloc] at hcast
      exact absurd hcast (by simp)

/-- C18 (amended), at `gpsState`: a request with a location and its twin
without one. -/
theorem checkIn_castable_locations_agree_witness :
    locationCasts (some locationNumbers) = true
      ∧ locationCasts none = true
      ∧ (checkIn (demoEnv "P1" 1000) { demoRequest none with locationData := some locationNumbers }
          gpsState).1.checkIns.map CheckIn.withoutLocation
        = (checkIn (demoEnv "P1" 1000) { demoRequest none with locationData := none }
            gpsState).1.checkIns.map CheckIn.withoutLocation :=
  ⟨by decide, by decide,
    (checkIn_castable_locations_agree (demoEnv "P1" 1000) (demoRequest none)
      (some locationNumbers) none gpsState (by decide) (by decide)).2.2.2.1⟩


/-! ## C20: check-ins one after the other, and from one snapshot -/

/-- The position of a "created" answer is the current-queue count plus 1. -/
theorem checkIn_created_position (env : Env) (req : CheckInRequest) (s : State)
    (id : String) (pos : Nat) (est : Int) (v : Bool)
    (h : (checkIn env req s).2 = Response.created id pos est v) :
    pos = countDocuments (inCurrentQueue req.clinicId env.today) s.checkIns + 1 := by
  rcases checkIn_cases env req s with ⟨_, _, hno⟩ |
    ⟨i, clinic, doc, _, _, _, _, hpos, _, _, _, _, _, _, hresp⟩
  · exact absurd h (hno id pos est v)
  · rw [hresp] at h
    split at h
    · simp only [Response.created.injEq] at h
      rw [← h.2.1, hpos]
    · exact absurd h (by simp)

/-- While every entry of the clinic-day is waiting or called, the count the
check-in handler takes is the number of entries of the clinic-day. -/
theorem currentQueue_eq_positions_length (clinicId : String) (today : Nat) (s : State)
    (hinv : PositionsInOrder clinicId today s) :
    countDocuments (inCurrentQueue clinicId today) s.checkIns
      = (positionsOf clinicId today s.checkIns).length := by
  simp only [positionsOf, List.length_map]
  apply countDocuments_congr
  intro e he
  by_cases hce : createdToday clinicId today e = true
  · rcases hinv.1 e he hce with hs | hs <;>
      simp [inCurrentQueue, createdToday, hs] at hce ⊢
  · simp only [Bool.not_eq_true] at hce
    simp only [hce]
    simp only [createdToday, Bool.and_eq_false_iff] at hce
    simp only [inCurrentQueue, Bool.and_eq_false_iff]
    rcases hce with hce | hce
    · exact Or.inl (Or.inl hce)
    · exact Or.inr hce

/-- C20 (counterexample): two check-ins that both read the empty database of
`demoClinic` are both given position 1; and a single check-in after P1
(position 1) was completed and P2 holds position 2 is given position 2, not
the prior maximum plus 1. -/
theorem checkIns_from_one_snapshot_share_position :
    (checkIn (demoEnv "P1" 1000) (demoRequest none) demoState).2
        = Response.created "P1" 1 15 false
      ∧ (checkIn (demoEnv "P2" 1000) (demoRequest none) demoState).2
        = Response.created "P2" 1 15 false
      ∧ positionsOf "clinic" 0 afterP1Served.checkIns = [1, 2]
      ∧ (checkIn (demoEnv "P3" 6000) (demoRequest none) afterP1Served).2
        = Response.created "P3" 2 30 false := by
  decide

/-- C20 (amended): N well-formed check-ins of one clinic-day served one after
the other, with capacity for all of them and the event sink registered, are
given the N consecutive (hence distinct) positions c + 1, ..., c + N, where c
is the number of the clinic's entries created that day that are waiting or
called; while every entry of the clinic-day is still waiting or called the
positions held are 1, ..., c, so c is the prior maximum. Two check-ins for
the same clinic and day that read the same database are given the same
position. -/
theorem serial_checkIns_get_consecutive_positions (clinicId : String) (today : Nat)
    (steps : List (Env × CheckInRequest)) (s : State) (i : Nat) (clinic : Clinic)
    (hclinic : findOne (fun c => c.clinicId == clinicId && c.isActive) s.clinics = some (i, clinic))
    (hcap : clinic.currentQueueSize + (steps.length : Int) ≤ clinic.maxQueueSize)
    (hreq : successiveRequests clinicId today steps s = true) :
    (checkInAll steps s).2.map Response.positionAndEstimate?
        = (List.range' (countDocuments (inCurrentQueue clinicId today) s.checkIns + 1)
            steps.length).map (fun (j : Nat) => some (j, (j : Int) * clinic.avgWaitTime))
      ∧ (List.range' (countDocuments (inCurrentQueue clinicId today) s.checkIns + 1)
          steps.length).Nodup
      ∧ (PositionsInOrder clinicId today s →
          positionsOf clinicId today s.checkIns
            = List.range' 1 (countDocuments (inCurrentQueue clinicId today) s.checkIns))
      ∧ ∀ env1 env2 req1 req2 id1 pos1 est1 v1 id2 pos2 est2 v2,
          req1.clinicId = req2.clinicId → env1.today = env2.today →
          (checkIn env1 req1 s).2 = Response.created id1 pos1 est1 v1 →
          (checkIn env2 req2 s).2 = Response.created id2 pos2 est2 v2 → pos1 = pos2 := by
  refine ⟨(checkInAll_positions clinicId today steps s i clinic _ hclinic hcap rfl hreq).1,
    List.nodup_range' _ _, ?_, ?_⟩
  · intro hinv
    rw [currentQueue_eq_positions_length clinicId today s hinv]
    exact hinv.2
  · intro env1 env2 req1 req2 id1 pos1 est1 v1 id2 pos2 est2 v2 hc ht h1 h2
    rw [checkIn_created_position env1 req1 s id1 pos1 est1 v1 h1,
      checkIn_created_position env2 req2 s id2 pos2 est2 v2 h2, hc, ht]

/-- C20 (amended), after P1 has checked in: P2 and P3, served one after the
other, are given positions 2 and 3. -/
theorem serial_checkIns_get_consecutive_positions_witness :
    findOne (fun c => c.clinicId == "clinic" && c.isActive) afterP1.clinics
        = some (0, { demoClinic with currentQueueSize := 1, totalCheckIns := 1 })
      ∧ successiveRequests "clinic" 0 laterRequests afterP1 = true
      ∧ (checkInAll laterRequests afterP1).2.map Response.positionAndEstimate?
        = [some (2, 30), some (3, 45)] := by
  refine ⟨by decide, by decide, ?_⟩
  have h := (serial_checkIns_get_consecutive_positions "clinic" 0 laterRequests
    afterP1 0 { demoClinic with currentQueueSize := 1, totalCheckIns := 1 }
    (by decide) (by decide) (by decide)).1
  rw [h]
  decide

end MediQueue
